import Mathlib

/-!
# Shadow render task of the hifi renderer

A shallow embedding of `libraries/render-utils/src/RenderShadowTask.cpp`
(`RenderShadowTask::RenderShadowTask`, `RenderShadowTask::run`,
`RenderShadowMap::run`) with the properties of the shadow pass proved over it,
of the cube exercised by `tests/shared/src/AACubeTests.cpp`, and of the url
prefix overrides of `libraries/networking/src/ResourceManager.cpp`
(`setUrlPrefixOverride`, `normalizeURL`).

Conventions of the embedding.

* Objects reached through pointers live in memories indexed by addresses
  (`Ptr`); a nullable pointer is an `Option Ptr`. The two context arguments of
  `run` are shared pointers the code dereferences unconditionally
  (`assert(sceneContext)`), so the `World` holds the objects they point to.
* A function returns `none` where the C++ dereferences a null pointer, indexes
  an empty vector or fails an `assert`.
* The `float` arithmetic of `RenderShadowTask::run` is IEEE 754 binary32
  (`Float32`): sums are rounded to nearest, ties to even, with infinities and
  NaN. `float` constants that are only passed on, and the coordinates of the
  cube, are rationals.
* Calls into code outside RenderShadowTask.cpp are recorded as events, in call
  order. What such code does is a parameter (`exec` for the jobs) or a
  definition marked as modelled from the spec.
* Static variables are passed explicitly: a function that writes one returns
  its new value. Locks are not modelled; calls run one after the other.
-/

namespace Hifi

/-- Address of an object. -/
abbrev Ptr := Nat

/-- Memory update: the memory `m` with the object at `p` replaced by `v`. -/
def store {α : Type} (m : Ptr → α) (p : Ptr) (v : α) : Ptr → α :=
  fun q => if q = p then v else m q

/-! ## Shape keys, filters and the shape plumber -/

/-- Modelled from the spec: `render::ShapeKey` (ShapePipeline.h is not among the
sources), "a small bitset classifying a drawable's rendering requirements (at
minimum: skinned/rigid)". The skinned bit is kept apart, the remaining bits
are `others`. -/
structure ShapeKey where
  skinned : Bool
  others : Nat
deriving DecidableEq

namespace ShapeKey

/-- The key built by `ShapeKey()`: no bit set. -/
def default : ShapeKey := ⟨false, 0⟩

/-- The key built by `ShapeKey::Builder().withSkinned()`. -/
def withSkinned : ShapeKey := ⟨true, 0⟩

/-- The accessor `ShapeKey::isSkinned()`. -/
def isSkinned (k : ShapeKey) : Bool := k.skinned

end ShapeKey

/-- Modelled from the spec: `render::ShapeKey::Filter`, "a filter over Shape
Key bits, allowing matches any key with bit X set". `none` leaves the bits
unconstrained. -/
structure Filter where
  skinned : Option Bool
  others : Option Nat
deriving DecidableEq

namespace Filter

/-- The filter `ShapeKey::Filter::Builder().withoutSkinned()`. -/
def withoutSkinned : Filter := ⟨some false, none⟩

/-- The filter `ShapeKey::Filter::Builder().withSkinned()`. -/
def withSkinned : Filter := ⟨some true, none⟩

/-- Whether the key passes the filter. -/
def test (f : Filter) (k : ShapeKey) : Bool :=
  (match f.skinned with
   | none => true
   | some b => k.skinned == b) &&
  (match f.others with
   | none => true
   | some n => k.others == n)

end Filter

/-- Shader sources included by RenderShadowTask.cpp. -/
inductive ShaderSource where
  | model_shadow_vert
  | skin_model_shadow_vert
  | model_shadow_frag
  | skin_model_shadow_frag
deriving DecidableEq

/-- Result of `gpu::Shader::createProgram(vertex, pixel)`. -/
structure Program where
  vertex : ShaderSource
  pixel : ShaderSource
deriving DecidableEq

/-- Cull modes of `gpu::State` used here. -/
inductive CullMode where
  | CULL_BACK
deriving DecidableEq

/-- Comparison functions of the gpu library used here. -/
inductive ComparisonFunction where
  | LESS_EQUAL
deriving DecidableEq

/-- The settings of a `gpu::State` that the task changes; `none` is the value a
fresh state has. -/
structure State where
  cullMode : Option CullMode
  depthTest : Option (Bool × Bool × ComparisonFunction)
deriving DecidableEq

namespace State

/-- A fresh `gpu::State`. -/
def fresh : State := ⟨none, none⟩

/-- The setter `gpu::State::setCullMode`. -/
def setCullMode (s : State) (m : CullMode) : State := { s with cullMode := some m }

/-- The setter `gpu::State::setDepthTest`. -/
def setDepthTest (s : State) (enabled writeMask : Bool) (f : ComparisonFunction) : State :=
  { s with depthTest := some (enabled, writeMask, f) }

end State

/-- Pair of compiled program and fixed-function state (`gpu::Pipeline`). -/
structure Pipeline where
  program : Program
  state : State
deriving DecidableEq

/-- The value `render::ShapePipeline`; its member `pipeline` is the gpu pipeline. -/
structure ShapePipeline where
  pipeline : Pipeline
deriving DecidableEq

/-- Modelled from the spec: `render::ShapePlumber` (ShapePipeline.cpp is not
among the sources). The registered filters, in registration order. -/
structure ShapePlumber where
  pipelines : List (Filter × ShapePipeline)
deriving DecidableEq

namespace ShapePlumber

/-- A plumber with nothing registered (`std::make_shared<ShapePlumber>()`). -/
def empty : ShapePlumber := ⟨[]⟩

/-- Modelled from the spec: `addPipeline(filter, program, state)` "registers a
{compiled program, state} pair for all Shape Keys matching filter". -/
def addPipeline (sp : ShapePlumber) (filter : Filter) (program : Program) (state : State) :
    ShapePlumber :=
  ⟨sp.pipelines ++ [(filter, ⟨⟨program, state⟩⟩)]⟩

/-- Modelled from the spec: `pickPipeline(args, key)`; "filters are evaluated in
registration order and the first matching filter wins"; a key matching no
filter gets no pipeline (a null pointer). -/
def pickPipeline (sp : ShapePlumber) (key : ShapeKey) : Option ShapePipeline :=
  (sp.pipelines.find? (fun e => e.1.test key)).map Prod.snd

end ShapePlumber

/-! ## Items, shape maps and job outputs -/

/-- A vector of three floats (`glm::vec3`). -/
structure Vec3 where
  x : ℚ
  y : ℚ
  z : ℚ
deriving DecidableEq

/-- A vector of four ints (`glm::ivec4`). -/
structure IVec4 where
  x : Int
  y : Int
  z : Int
  w : Int
deriving DecidableEq

/-- A vector of four floats (`glm::vec4`). -/
structure Vec4 where
  x : ℚ
  y : ℚ
  z : ℚ
  w : ℚ
deriving DecidableEq

/-- An axis-aligned box, the bound of an item. -/
structure AABox where
  corner : Vec3
  scale : Vec3
deriving DecidableEq

/-- Identifier and bound of a scene item. -/
structure ItemIDAndBounds where
  id : Nat
  bounds : AABox
deriving DecidableEq

/-- The item list of one shape key (`render::ItemIDsBounds`). -/
abbrev ItemIDsBounds := List ItemIDAndBounds

/-- The map `render::ShapesIDsBounds` from shape key to items: its entries in
iteration order; a map holds a key once. -/
structure ShapesIDsBounds where
  entries : List (ShapeKey × ItemIDsBounds)
  nodup : (entries.map Prod.fst).Nodup

namespace ShapesIDsBounds

/-- The lookup `inShapes.at(key)`; `none` where `at` throws. -/
def «at» (m : ShapesIDsBounds) (key : ShapeKey) : Option ItemIDsBounds :=
  (m.entries.find? (fun e => e.1 == key)).map Prod.snd

end ShapesIDsBounds

/-- Handle to the output of a job (`render::Varying`): the position of the
producing job in the task. -/
structure Varying where
  producer : Nat
deriving DecidableEq

/-- Modelled from the spec: what the output slot of a job holds ("a typed output
slot populated each run"): nothing yet, the items of a fetch or cull job, or
the shape map of a sort job. -/
inductive VaryingValue where
  | unset
  | items (value : ItemIDsBounds)
  | shapes (value : ShapesIDsBounds)

/-! ## Floats -/

/-- A value of the C++ type `float` (IEEE 754 binary32): a finite value as a whole
number of units of 2^-149, the spacing of the smallest floats; an infinity; or
NaN. The two signed zeros are one value. The finite floats are the values
`round` returns; the operations below are defined on every `finite k`. -/
inductive Float32 where
  | finite (units : Int)
  | inf (negative : Bool)
  | nan
deriving DecidableEq

namespace Float32

/-- The number of units in 1.0. -/
def unitsPerOne : Nat := 2 ^ 149

/-- The magnitude `n` with its digits below 2^shift rounded away: to the nearest
multiple of 2^shift, a tie to the even multiple. -/
def roundAt (shift n : Nat) : Nat :=
  let m := n / 2 ^ shift
  let rest := n % 2 ^ shift
  if 2 * rest < 2 ^ shift then m * 2 ^ shift
  else if 2 * rest = 2 ^ shift ∧ m % 2 = 0 then m * 2 ^ shift
  else (m + 1) * 2 ^ shift

/-- The magnitude, in units, nearest to `n` that fits the 24 digits of a float
significand: exact below 2^24 units; above, the digits past the 24th are
rounded to nearest, a tie to the even significand. -/
def roundNat (n : Nat) : Nat :=
  if n < 2 ^ 24 then n else roundAt (Nat.log2 n - 23) n

/-- The float nearest to the exact value of `s` units: round to nearest, ties to
even; a magnitude that rounds to 2^128 or more gives an infinity. -/
def round (s : Int) : Float32 :=
  let n := roundNat s.natAbs
  if n < 2 ^ 128 * unitsPerOne then finite (if s < 0 then -(n : Int) else (n : Int))
  else inf (decide (s < 0))

/-- The conversion of an `int` to `float`. -/
def ofInt (i : Int) : Float32 := round (i * (unitsPerOne : Int))

/-- The sum `a + b` of two floats. -/
def add : Float32 → Float32 → Float32
  | finite a, finite b => round (a + b)
  | finite _, inf negative => inf negative
  | inf negative, finite _ => inf negative
  | inf a, inf b => if a = b then inf a else nan
  | nan, _ => nan
  | _, nan => nan

/-- The comparison `a <= b` of two floats; false when either is NaN. -/
def le : Float32 → Float32 → Bool
  | finite a, finite b => decide (a ≤ b)
  | finite _, inf negative => !negative
  | inf negative, finite _ => negative
  | inf a, inf b => a || !b
  | nan, _ => false
  | _, nan => false

/-- The exact difference `b - a` of two finite floats, in units. -/
def unitsBetween : Float32 → Float32 → Option Int
  | finite a, finite b => some (b - a)
  | _, _ => none

/-- The comparison `a < b` of two floats; false when either is NaN. -/
def lt : Float32 → Float32 → Bool
  | finite a, finite b => decide (a < b)
  | finite _, inf negative => !negative
  | inf negative, finite _ => negative
  | inf a, inf b => a && !b
  | nan, _ => false
  | _, nan => false

end Float32

/-! ## Render context, lights and the world -/

/-- The part of `ViewFrustum` the task reads and derives: its clip bounds. -/
structure ViewFrustum where
  nearClip : Float32
  farClip : Float32
deriving DecidableEq

/-- Pixel dimensions of a `gpu::Framebuffer`. -/
structure Framebuffer where
  width : Nat
  height : Nat
deriving DecidableEq

/-- Modelled from the spec: `LightStage::Shadow` (LightStage.h is not among the
sources), "carrying its own frustum and target framebuffer" and exposing "its
derived shadow transform". `frustum` is the address held by the shared
pointer `getFrustum()`; `projection` and `view` name the two matrices. -/
structure Shadow where
  frustum : Ptr
  framebuffer : Framebuffer
  projection : Nat
  view : Nat
deriving DecidableEq

/-- A light of the light stage, with its public member `shadow`. -/
structure Light where
  shadow : Shadow
deriving DecidableEq

/-- The fields of `RenderArgs` the shadow pass touches. `_batch` is set while a
batch is being recorded. -/
structure RenderArgs where
  _viewFrustum : Option Ptr
  _batch : Option Unit
  _pipeline : Option ShapePipeline
deriving DecidableEq

/-- Everything a call of `run` can reach: the scene context (`_scene`), the
render context (`getArgs()`), the light stage obtained from the dependency
manager (`lights`), the memories holding the objects pointed to, and the
output slots of the jobs. -/
structure World where
  scene : Option Ptr
  args : Option Ptr
  argsMem : Ptr → RenderArgs
  lights : List (Option Ptr)
  lightMem : Ptr → Light
  frustumMem : Ptr → ViewFrustum
  outputs : Varying → VaryingValue

namespace World

/-- The assignment `args->_viewFrustum = f`. -/
def setViewFrustum (w : World) (args : Ptr) (f : Option Ptr) : World :=
  { w with argsMem := store w.argsMem args { w.argsMem args with _viewFrustum := f } }

/-- The frustum object `light->shadow.getFrustum()` points to. -/
def shadowFrustum (w : World) (light : Ptr) : ViewFrustum :=
  w.frustumMem (w.lightMem light).shadow.frustum

end World

/-- Modelled from the spec: `LightStage::Shadow::setKeylightFrustum(viewFrustum,
nearDepth, farDepth)` (LightStage.cpp is not among the sources), the "setter
taking (reference frustum, near bound, far bound) to derive a light frustum":
the frustum object owned by the light's shadow gets the two bounds. -/
def setKeylightFrustum (light : Ptr) (_viewFrustum : Ptr) (nearDepth farDepth : Float32)
    (w : World) : World :=
  let derived : ViewFrustum := ⟨nearDepth, farDepth⟩
  { w with frustumMem := store w.frustumMem (w.lightMem light).shadow.frustum derived }

/-! ## Jobs and tasks -/

/-- Item categories of `RenderDetails`. -/
inductive RenderDetails where
  | SHADOW_ITEM
deriving DecidableEq

/-- The job classes instantiated by the shadow task, with their construction
arguments. -/
inductive JobModel where
  | FetchItems
  | CullItems (details : RenderDetails)
  | PipelineSortShapes
  | DepthSortShapes
  | RenderShadowMap (shapePlumber : ShapePlumber)
deriving DecidableEq

/-- A job of a task: display name, computation, input binding. -/
structure Job where
  name : String
  model : JobModel
  input : Option Varying
deriving DecidableEq

/-- A `render::Task`: its jobs `_jobs` in declaration order. -/
structure Task where
  _jobs : List Job
deriving DecidableEq

namespace Task

/-- The base constructor `Task()`. -/
def new : Task := ⟨[]⟩

/-- Modelled from the spec: `addJob<T>(name, input, args...)` (render/Task.h is
not among the sources) constructs the job, "records a dependency edge from
the named prior output (or none, for a root job) to this job's input" and
"returns a typed handle usable as the input to a subsequent addJob call". -/
def addJob (t : Task) (name : String) (model : JobModel) (input : Option Varying) :
    Task × Varying :=
  (⟨t._jobs ++ [⟨name, model, input⟩]⟩, ⟨t._jobs.length⟩)

end Task

/-- Calls the task makes into code outside RenderShadowTask.cpp. -/
inductive Event where
  | setKeylightFrustum (light : Ptr) (viewFrustum : Ptr) (nearDepth farDepth : Float32)
  | jobRun (job : Job)
deriving DecidableEq

/-- The loop `for (auto job : _jobs) job.run(sceneContext, renderContext)`.
`exec job w` is the world left by `job.run` started in `w`, `none` when the
job does not return. -/
def runJobs (exec : Job → World → Option World) : List Job → World → Option (World × List Event)
  | [], w => some (w, [])
  | job :: rest, w =>
    match exec job w with
    | none => none
    | some w1 =>
      match runJobs exec rest w1 with
      | none => none
      | some (w2, tr) => some (w2, Event.jobRun job :: tr)

namespace RenderShadowTask

/-- The constant `SHADOW_NEAR_DEPTH` of `run`. -/
def SHADOW_NEAR_DEPTH : Int := -2

/-- The constant `SHADOW_FAR_DEPTH` of `run`. -/
def SHADOW_FAR_DEPTH : Int := 20

/-- The plumber prepared by the constructor `RenderShadowTask::RenderShadowTask`. -/
def shapePlumber : ShapePlumber :=
  let shapePlumber := ShapePlumber.empty
  let state := State.fresh
  let state := state.setCullMode CullMode.CULL_BACK
  let state := state.setDepthTest true true ComparisonFunction.LESS_EQUAL
  let modelProgram : Program := ⟨ShaderSource.model_shadow_vert, ShaderSource.model_shadow_frag⟩
  let shapePlumber := shapePlumber.addPipeline Filter.withoutSkinned modelProgram state
  let skinProgram : Program :=
    ⟨ShaderSource.skin_model_shadow_vert, ShaderSource.skin_model_shadow_frag⟩
  shapePlumber.addPipeline Filter.withSkinned skinProgram state

/-- The constructor `RenderShadowTask::RenderShadowTask`. -/
def new : Task :=
  let task := Task.new
  let (task, fetchedItems) := task.addJob "FetchShadowMap" JobModel.FetchItems none
  let (task, culledItems) :=
    task.addJob "CullShadowMap" (JobModel.CullItems RenderDetails.SHADOW_ITEM) (some fetchedItems)
  let (task, sortedShapes) :=
    task.addJob "PipelineSortShadowSort" JobModel.PipelineSortShapes (some culledItems)
  let (task, shadowShapes) :=
    task.addJob "DepthSortShadowMap" JobModel.DepthSortShapes (some sortedShapes)
  (task.addJob "RenderShadowMap" (JobModel.RenderShadowMap shapePlumber) (some shadowShapes)).1

/-- The method `RenderShadowTask::run`. The result is the world at return and the
outside calls made, in order; `none` when the call does not return. -/
def run (exec : Job → World → Option World) (task : Task) (w : World) :
    Option (World × List Event) :=
  match w.scene, w.args with
  | none, _ => some (w, [])
  | some _, none => some (w, [])
  | some _, some args =>
    match w.lights[0]? with
    | none => none
    | some none => some (w, [])
    | some (some globalLight) =>
      match (w.argsMem args)._viewFrustum with
      | none => none
      | some viewFrustum =>
        let nearClip := (w.frustumMem viewFrustum).nearClip
        let nearDepth := Float32.add nearClip (Float32.ofInt SHADOW_NEAR_DEPTH)
        let farDepth := Float32.add nearClip (Float32.ofInt SHADOW_FAR_DEPTH)
        let w1 := setKeylightFrustum globalLight viewFrustum nearDepth farDepth w
        let w2 := w1.setViewFrustum args (some (w1.lightMem globalLight).shadow.frustum)
        match runJobs exec task._jobs w2 with
        | none => none
        | some (w3, tr) =>
          some (w3.setViewFrustum args (some viewFrustum),
            Event.setKeylightFrustum globalLight viewFrustum nearDepth farDepth :: tr)

end RenderShadowTask

/-! ## The render job of the shadow map -/

/-- Buffers of a framebuffer named in a clear. -/
inductive BufferTarget where
  | BUFFER_COLOR0
  | BUFFER_DEPTH
deriving DecidableEq

/-- What `RenderShadowMap::run` records, in recording order: the calls on the
batch, and the calls of `renderItems` with the pipeline `args->_pipeline` held
at the call. -/
inductive Command where
  | setViewportTransform (viewport : IVec4)
  | setStateScissorRect (rect : IVec4)
  | setFramebuffer (fbo : Framebuffer)
  | clearFramebuffer (targets : List BufferTarget) (color : Vec4) (depth : ℚ) (stencil : Int)
      (enableScissor : Bool)
  | setProjectionTransform (projection : Nat)
  | setViewTransform (view : Nat)
  | setPipeline (pipeline : Pipeline)
  | renderItems (pipeline : Option ShapePipeline) (inItems : ItemIDsBounds)
deriving DecidableEq

/-- The recording of a `gpu::Batch`. -/
abbrev Batch := List Command

namespace World

/-- The assignment `args->_batch = b`. -/
def setBatch (w : World) (args : Ptr) (b : Option Unit) : World :=
  { w with argsMem := store w.argsMem args { w.argsMem args with _batch := b } }

/-- The assignment `args->_pipeline = p`. -/
def setPipeline (w : World) (args : Ptr) (p : Option ShapePipeline) : World :=
  { w with argsMem := store w.argsMem args { w.argsMem args with _pipeline := p } }

end World

/-- Modelled from the spec: `render::renderItems(sceneContext, renderContext,
inItems)` (DrawTask.cpp is not among the sources) records the draws of the
items into the batch of the render args, under the pipeline the args hold. -/
def renderItems (w : World) (args : Ptr) (batch : Batch) (inItems : ItemIDsBounds) : Batch :=
  batch ++ [Command.renderItems (w.argsMem args)._pipeline inItems]

namespace RenderShadowMap

/-- The method `RenderShadowMap::run` of a job built with `_shapePlumber`. The
result is the world at return and the batch handed to the gpu context; `none`
when the call does not return. -/
def run (_shapePlumber : ShapePlumber) (w : World) (inShapes : ShapesIDsBounds) :
    Option (World × Batch) :=
  match w.args with
  | none => none
  | some args =>
    match (w.argsMem args)._viewFrustum with
    | none => none
    | some _ =>
      match w.lights[0]? with
      | none => none
      | some none => none
      | some (some globalLight) =>
        let shadow := (w.lightMem globalLight).shadow
        let fbo := shadow.framebuffer
        let batch : Batch := []
        let w := w.setBatch args (some ())
        let viewport : IVec4 := ⟨0, 0, fbo.width, fbo.height⟩
        let batch := batch ++ [Command.setViewportTransform viewport]
        let batch := batch ++ [Command.setStateScissorRect viewport]
        let batch := batch ++ [Command.setFramebuffer fbo]
        let batch := batch ++ [Command.clearFramebuffer
          [BufferTarget.BUFFER_COLOR0, BufferTarget.BUFFER_DEPTH] ⟨1, 1, 1, 1⟩ 1 0 true]
        let batch := batch ++ [Command.setProjectionTransform shadow.projection]
        let batch := batch ++ [Command.setViewTransform shadow.view]
        match _shapePlumber.pickPipeline ShapeKey.default,
            _shapePlumber.pickPipeline ShapeKey.withSkinned with
        | some shadowPipeline, some shadowSkinnedPipeline =>
          let w := w.setPipeline args (some shadowPipeline)
          let batch := batch ++ [Command.setPipeline shadowPipeline.pipeline]
          let (batch, skinnedShapeKeys) :=
            inShapes.entries.foldl
              (fun (acc : Batch × List ShapeKey) items =>
                if items.1.isSkinned then (acc.1, acc.2 ++ [items.1])
                else (renderItems w args acc.1 items.2, acc.2))
              (batch, [])
          let w := w.setPipeline args (some shadowSkinnedPipeline)
          let batch := batch ++ [Command.setPipeline shadowSkinnedPipeline.pipeline]
          match skinnedShapeKeys.foldlM
              (fun (b : Batch) key => (inShapes.at key).map (renderItems w args b)) batch with
          | none => none
          | some batch =>
            let w := w.setPipeline args none
            let w := w.setBatch args none
            some (w, batch)
        | _, _ => none

end RenderShadowMap

/-! ## Axis-aligned cubes -/

namespace Vec3

/-- Componentwise sum. -/
def add (a b : Vec3) : Vec3 := ⟨a.x + b.x, a.y + b.y, a.z + b.z⟩

/-- Componentwise difference. -/
def sub (a b : Vec3) : Vec3 := ⟨a.x - b.x, a.y - b.y, a.z - b.z⟩

/-- The vector with `t` on axis `i` and zero elsewhere (`Vectors::ZERO` with
component `i` assigned). -/
def axis (i : Fin 3) (t : ℚ) : Vec3 :=
  match i with
  | 0 => ⟨t, 0, 0⟩
  | 1 => ⟨0, t, 0⟩
  | 2 => ⟨0, 0, t⟩

/-- The vector `glm::vec3(t)`. -/
def splat (t : ℚ) : Vec3 := ⟨t, t, t⟩

end Vec3

/-- Modelled from the spec: the class `AACube` (shared/src/AACube.cpp is not among
the sources; the tests of AACubeTests.cpp are). A cube is built from its
minimum corner and its scale. -/
structure AACube where
  corner : Vec3
  scale : ℚ
deriving DecidableEq

namespace AACube

/-- Modelled from the spec: `getMinimumPoint()` is the corner
(`AACubeTests::ctorsAndSetters`). -/
def getMinimumPoint (c : AACube) : Vec3 := c.corner

/-- Modelled from the spec: `getMaximumPoint()` is `corner + glm::vec3(scale)`
(`AACubeTests::ctorsAndSetters`). -/
def getMaximumPoint (c : AACube) : Vec3 := c.corner.add (Vec3.splat c.scale)

/-- Modelled from the spec: `calcCenter()` is `corner + glm::vec3(0.5f * scale)`
(`AACubeTests::ctorsAndSetters`). -/
def calcCenter (c : AACube) : Vec3 := c.corner.add (Vec3.splat (c.scale / 2))

/-- Modelled from the spec: `contains(point)`: on each axis the point lies between
the minimum and the maximum point of the cube. -/
def contains (c : AACube) (p : Vec3) : Bool :=
  decide (c.getMinimumPoint.x ≤ p.x ∧ p.x ≤ c.getMaximumPoint.x) &&
  decide (c.getMinimumPoint.y ≤ p.y ∧ p.y ≤ c.getMaximumPoint.y) &&
  decide (c.getMinimumPoint.z ≤ p.z ∧ p.z ≤ c.getMaximumPoint.z)

end AACube

/-! ## Observations on event lists and concrete inputs -/

/-- The calls of `setKeylightFrustum` among the events, in order. -/
def keylightCalls : List Event → List (Ptr × Ptr × Float32 × Float32)
  | [] => []
  | Event.setKeylightFrustum light viewFrustum nearDepth farDepth :: rest =>
    (light, viewFrustum, nearDepth, farDepth) :: keylightCalls rest
  | Event.jobRun _ :: rest => keylightCalls rest

/-- The jobs invoked among the events, in order. -/
def jobsRun : List Event → List Job
  | [] => []
  | Event.setKeylightFrustum _ _ _ _ :: rest => jobsRun rest
  | Event.jobRun job :: rest => job :: jobsRun rest

/-- A frame with a scene, render args at address 1 viewing through the camera
frustum at address 5 (near clip 1), and a primary light at address 2 whose
shadow owns the frustum at address 7. -/
def sampleWorld : World where
  scene := some 0
  args := some 1
  argsMem := fun _ => ⟨some 5, none, none⟩
  lights := [some 2]
  lightMem := fun _ => ⟨⟨7, ⟨2048, 2048⟩, 0, 0⟩⟩
  frustumMem := fun _ =>
    ⟨Float32.finite (1 * Float32.unitsPerOne), Float32.finite (100 * Float32.unitsPerOne)⟩
  outputs := fun _ => VaryingValue.unset

/-- The float 1e10f: 10000000000 is 9765625 * 2^10 and fits the significand. -/
def float1e10 : Float32 := Float32.finite (10000000000 * Float32.unitsPerOne)

/-- The float 0.08f, the float nearest to 0.08: 10737418 * 2^-27. -/
def float0_08 : Float32 := Float32.finite ((10737418 * 2 ^ 122 : Nat) : Int)

/-- The frame `sampleWorld` with every frustum at near clip `n` and far clip `f`. -/
def worldWithClips (n f : Float32) : World :=
  { sampleWorld with frustumMem := fun _ => ⟨n, f⟩ }

/-- The frame `sampleWorld` without a primary light. -/
def unlitWorld : World := { sampleWorld with lights := [none] }

/-- A job behaviour in which every job returns, produces zero items in every
output slot and leaves the render args pointing at no frustum. -/
def clobberingExec : Job → World → Option World :=
  fun _ w => some ({ w with outputs := fun _ => VaryingValue.items [] }.setViewFrustum 1 none)

/-- A job behaviour that returns and changes nothing. -/
def idleExec : Job → World → Option World :=
  fun _ w => some w

/-- A draw seen in a batch: the gpu pipeline bound on the batch at the draw, the
pipeline active in the render args at the draw, and the items drawn. -/
structure Draw where
  bound : Option Pipeline
  active : Option ShapePipeline
  items : ItemIDsBounds
deriving DecidableEq

/-- The draws of a batch, in recording order; `bound` is the pipeline bound on
the batch before its first command. -/
def draws (bound : Option Pipeline) : Batch → List Draw
  | [] => []
  | Command.setPipeline p :: rest => draws (some p) rest
  | Command.renderItems active inItems :: rest => ⟨bound, active, inItems⟩ :: draws bound rest
  | Command.setViewportTransform _ :: rest => draws bound rest
  | Command.setStateScissorRect _ :: rest => draws bound rest
  | Command.setFramebuffer _ :: rest => draws bound rest
  | Command.clearFramebuffer _ _ _ _ _ :: rest => draws bound rest
  | Command.setProjectionTransform _ :: rest => draws bound rest
  | Command.setViewTransform _ :: rest => draws bound rest

/-- The framebuffer clears of a batch, in recording order. -/
def clears : Batch → List Command
  | [] => []
  | Command.clearFramebuffer t c d s e :: rest => Command.clearFramebuffer t c d s e :: clears rest
  | Command.setPipeline _ :: rest => clears rest
  | Command.renderItems _ _ :: rest => clears rest
  | Command.setViewportTransform _ :: rest => clears rest
  | Command.setStateScissorRect _ :: rest => clears rest
  | Command.setFramebuffer _ :: rest => clears rest
  | Command.setProjectionTransform _ :: rest => clears rest
  | Command.setViewTransform _ :: rest => clears rest

/-- The item lists handed to `renderItems` in a batch, in recording order. -/
def renderedItems (batch : Batch) : List ItemIDsBounds :=
  (draws none batch).map Draw.items

/-- The pipeline the shadow task registers for keys that are not skinned. -/
def modelPipeline : ShapePipeline :=
  ⟨⟨⟨ShaderSource.model_shadow_vert, ShaderSource.model_shadow_frag⟩,
    (State.fresh.setCullMode CullMode.CULL_BACK).setDepthTest true true
      ComparisonFunction.LESS_EQUAL⟩⟩

/-- The pipeline the shadow task registers for skinned keys. -/
def skinPipeline : ShapePipeline :=
  ⟨⟨⟨ShaderSource.skin_model_shadow_vert, ShaderSource.skin_model_shadow_frag⟩,
    (State.fresh.setCullMode CullMode.CULL_BACK).setDepthTest true true
      ComparisonFunction.LESS_EQUAL⟩⟩

/-- A plumber whose two filters match the keys `ShapeKey()` and
`ShapeKey::Builder().withSkinned()` and no other key. -/
def exactPlumber : ShapePlumber :=
  (ShapePlumber.empty.addPipeline ⟨some false, some 0⟩ modelPipeline.pipeline.program
    modelPipeline.pipeline.state).addPipeline ⟨some true, some 0⟩
    skinPipeline.pipeline.program skinPipeline.pipeline.state

/-- A rigid key with one further bit set. -/
def oddKey : ShapeKey := ⟨false, 1⟩

/-- The scene item with identifier `n` and a unit bound. -/
def sampleItem (n : Nat) : ItemIDAndBounds := ⟨n, ⟨⟨0, 0, 0⟩, ⟨1, 1, 1⟩⟩⟩

/-- A shape map with one entry under `oddKey` and one under `ShapeKey()`. -/
def oddShapes : ShapesIDsBounds where
  entries := [(oddKey, [sampleItem 7]), (ShapeKey.default, [sampleItem 8])]
  nodup := by decide

/-- A shape map with a skinned entry ahead of a rigid one. -/
def mixedShapes : ShapesIDsBounds where
  entries := [(ShapeKey.withSkinned, [sampleItem 3]), (ShapeKey.default, [sampleItem 4])]
  nodup := by decide

/-- The shape map without entries. -/
def noShapes : ShapesIDsBounds where
  entries := []
  nodup := List.nodup_nil

/-! ## Resource manager -/

/-- A code unit of a `QString` (`QChar`), by its numeric value. -/
abbrev QChar := Nat

/-- A `QString`: its sequence of code units, compared like `QString` by the
numeric values of the code units. The difference Qt makes between a null and
an empty string is not modelled. -/
abbrev QString := List QChar

namespace QString

/-- The string literal with the characters of `s`. -/
def ofString (s : String) : QString := s.toList.map Char.toNat

/-- The method `QString::size()`. -/
def size (s : QString) : Nat := s.length

/-- The method `QString::isEmpty()`. -/
def isEmpty (s : QString) : Bool := s.size == 0

/-- The method `QString::startsWith(s)`, case sensitive. -/
def startsWith (s : QString) (start : QString) : Bool := List.isPrefixOf start s

/-- The method `QString::replace(position, n, after)`: the `n` code units from
index `position` on give way to `after`; a position past the end changes
nothing and `n` is cut at the end of the string. -/
def replace (s : QString) (position n : Nat) (after : QString) : QString :=
  if position > s.size then s
  else
    let n := if n > s.size - position then s.size - position else n
    List.take position s ++ after ++ List.drop (position + n) s

end QString

/-- The type `ResourceManager::PrefixMap` (declared in ResourceManager.h, which is
not among the sources; its uses `erase(key)`, `operator[]`, `entry.first` are
those of a `std::map` from `QString` to `QString`): the entries of the map in
iteration order, which for a `std::map` is ascending key order. -/
abbrev PrefixMap := List (QString × QString)

namespace PrefixMap

/-- The call `map.erase(key)`: the entry under `key`, if any, goes. -/
def erase (m : PrefixMap) (key : QString) : PrefixMap :=
  List.filter (fun e => e.1 != key) m

/-- The assignment `map[key] = value`: the entry under `key` gets `value`, or a
new entry is put at the place of `key` in key order. -/
def assign : PrefixMap → QString → QString → PrefixMap
  | [], key, value => [(key, value)]
  | e :: rest, key, value =>
    if key < e.1 then (key, value) :: e :: rest
    else if key = e.1 then (key, value) :: rest
    else e :: assign rest key value

end PrefixMap

namespace ResourceManager

/-- The function `ResourceManager::setUrlPrefixOverride`, as a function of the
static `_prefixMap`: the map it leaves. -/
def setUrlPrefixOverride (_prefixMap : PrefixMap) (urlPrefix replacement : QString) :
    PrefixMap :=
  if replacement.isEmpty then PrefixMap.erase _prefixMap urlPrefix
  else PrefixMap.assign _prefixMap urlPrefix replacement

/-- The loop `foreach(const auto& entry, copy)` of `normalizeURL`, with the
variable `result` as state. -/
def normalizeLoop : PrefixMap → QString → QString
  | [], result => result
  | entry :: rest, result =>
    let urlPrefix := entry.1
    let replacement := entry.2
    if result.startsWith urlPrefix then
      normalizeLoop rest (result.replace 0 urlPrefix.size replacement)
    else normalizeLoop rest result

/-- The function `ResourceManager::normalizeURL(const QString&)`, as a function of
the static `_prefixMap` it copies under the lock. -/
def normalizeURL (_prefixMap : PrefixMap) (urlString : QString) : QString :=
  let result := urlString
  let copy := _prefixMap
  normalizeLoop copy result

/-- The static `_prefixMap` after the calls `setUrlPrefixOverride(p, r)` for the
pairs `(p, r)` of `calls`, in order, starting from the empty map of program
start. Nothing else in ResourceManager.cpp writes the map. -/
def prefixMapAfter (calls : List (QString × QString)) : PrefixMap :=
  calls.foldl (fun m call => setUrlPrefixOverride m call.1 call.2) []

/-- The left fold as worded in the claim: over the entries, starting from the
input string, "if the running result starts with prefix then its first
|prefix| characters are replaced by replacement, otherwise it is left as is". -/
def normalizeURLFold (entries : List (List Nat × List Nat)) (urlString : List Nat) : List Nat :=
  entries.foldl
    (fun running entry =>
      if entry.1 <+: running then entry.2 ++ running.drop entry.1.length else running)
    urlString

end ResourceManager

/-- Two overrides registered against key order: `b` to `c`, then `a` to `b`. -/
def chainedCalls : List (QString × QString) :=
  [(QString.ofString "b", QString.ofString "c"), (QString.ofString "a", QString.ofString "b")]

/-! ## Lemmas on the job loop -/

theorem store_same {α : Type} (m : Ptr → α) (p : Ptr) (v : α) : store m p v p = v := by
  simp [store]

theorem runJobs_isSome (exec : Job → World → Option World)
    (hexec : ∀ job w, (exec job w).isSome) (jobs : List Job) (w : World) :
    (runJobs exec jobs w).isSome := by
  induction jobs generalizing w with
  | nil => simp [runJobs]
  | cons job rest ih =>
    obtain ⟨w1, h1⟩ := Option.isSome_iff_exists.mp (hexec job w)
    obtain ⟨r, h2⟩ := Option.isSome_iff_exists.mp (ih w1)
    obtain ⟨w2, tr⟩ := r
    simp [runJobs, h1, h2]

theorem runJobs_events (exec : Job → World → Option World) (jobs : List Job) (w : World)
    (r : World × List Event) (h : runJobs exec jobs w = some r) :
    r.2 = jobs.map Event.jobRun := by
  induction jobs generalizing w r with
  | nil =>
    simp only [runJobs, Option.some.injEq] at h
    subst h
    rfl
  | cons job rest ih =>
    simp only [runJobs] at h
    cases h1 : exec job w with
    | none => simp [h1] at h
    | some w1 =>
      cases h2 : runJobs exec rest w1 with
      | none => simp [h1, h2] at h
      | some r2 =>
        obtain ⟨w2, tr⟩ := r2
        simp only [h1, h2, Option.some.injEq] at h
        subst h
        have htr : tr = rest.map Event.jobRun := ih w1 (w2, tr) h2
        simp [htr]

theorem runJobs_preserves {α : Type} (f : World → α) (exec : Job → World → Option World)
    (hexec : ∀ job w1 w2, exec job w1 = some w2 → f w2 = f w1)
    (jobs : List Job) (w : World) (r : World × List Event)
    (h : runJobs exec jobs w = some r) : f r.1 = f w := by
  induction jobs generalizing w r with
  | nil =>
    simp only [runJobs, Option.some.injEq] at h
    subst h
    rfl
  | cons job rest ih =>
    simp only [runJobs] at h
    cases h1 : exec job w with
    | none => simp [h1] at h
    | some w1 =>
      cases h2 : runJobs exec rest w1 with
      | none => simp [h1, h2] at h
      | some r2 =>
        obtain ⟨w2, tr⟩ := r2
        simp only [h1, h2, Option.some.injEq] at h
        subst h
        exact (ih w1 (w2, tr) h2).trans (hexec job w w1 h1)

theorem jobsRun_map (jobs : List Job) : jobsRun (jobs.map Event.jobRun) = jobs := by
  induction jobs with
  | nil => rfl
  | cons job rest ih => simp [jobsRun, ih]

theorem keylightCalls_map (jobs : List Job) : keylightCalls (jobs.map Event.jobRun) = [] := by
  induction jobs with
  | nil => rfl
  | cons job rest ih => simp [keylightCalls, ih]

theorem runJobs_idleExec (jobs : List Job) (w : World) :
    runJobs idleExec jobs w = some (w, jobs.map Event.jobRun) := by
  induction jobs with
  | nil => rfl
  | cons job rest ih => simp [runJobs, idleExec, ih]

/-- What a call of `run` that passed its checks computes: the jobs ran from the
world with the light frustum derived and installed, and the entry frustum is
put back. -/
theorem RenderShadowTask.run_passing (exec : Job → World → Option World) (task : Task)
    (w : World) (scene args globalLight viewFrustum : Ptr)
    (hscene : w.scene = some scene) (hargs : w.args = some args)
    (hlight : w.lights[0]? = some (some globalLight))
    (hvf : (w.argsMem args)._viewFrustum = some viewFrustum) :
    RenderShadowTask.run exec task w =
      (runJobs exec task._jobs
        ((setKeylightFrustum globalLight viewFrustum
            (Float32.add (w.frustumMem viewFrustum).nearClip (Float32.ofInt (-2)))
            (Float32.add (w.frustumMem viewFrustum).nearClip (Float32.ofInt 20))
            w).setViewFrustum args (some (w.lightMem globalLight).shadow.frustum))).map
        (fun r => (r.1.setViewFrustum args (some viewFrustum),
          Event.setKeylightFrustum globalLight viewFrustum
            (Float32.add (w.frustumMem viewFrustum).nearClip (Float32.ofInt (-2)))
            (Float32.add (w.frustumMem viewFrustum).nearClip (Float32.ofInt 20))
            :: r.2)) := by
  have hmem : ∀ a b : Float32,
      (setKeylightFrustum globalLight viewFrustum a b w).lightMem = w.lightMem := fun _ _ => rfl
  simp only [RenderShadowTask.run, hscene, hargs, hlight, hvf, hmem,
    RenderShadowTask.SHADOW_NEAR_DEPTH, RenderShadowTask.SHADOW_FAR_DEPTH]
  cases runJobs exec task._jobs _ with
  | none => rfl
  | some r => rfl

/-- A call of `run` that fails a check returns at once. -/
theorem RenderShadowTask.run_failing (exec : Job → World → Option World) (task : Task)
    (w : World) (h : w.scene = none ∨ w.args = none ∨ w.lights[0]? = some none) :
    RenderShadowTask.run exec task w = some (w, []) := by
  rcases h with h | h | h
  · simp [RenderShadowTask.run, h]
  · cases hs : w.scene <;> simp [RenderShadowTask.run, h, hs]
  · cases hs : w.scene with
    | none => simp [RenderShadowTask.run, hs]
    | some sc =>
      cases ha : w.args with
      | none => simp [RenderShadowTask.run, hs, ha]
      | some a => simp [RenderShadowTask.run, hs, ha, h]

/-! ## Lemmas on floats -/

theorem Float32.roundNat_small (n : Nat) (h : n < 2 ^ 24) : Float32.roundNat n = n := by
  simp only [Float32.roundNat, if_pos h]

theorem Float32.log2_eq (n e : Nat) (hlo : 2 ^ e ≤ n) (hhi : n < 2 ^ (e + 1)) :
    Nat.log2 n = e := by
  have hn : n ≠ 0 := by
    have : 0 < 2 ^ e := Nat.pos_pow_of_pos _ (by norm_num)
    omega
  have h1 : e ≤ Nat.log2 n := (Nat.le_log2 hn).mpr hlo
  have h2 : Nat.log2 n < e + 1 := (Nat.log2_lt hn).mpr hhi
  omega

theorem Float32.roundNat_digits (n : Nat) (h : 2 ^ 24 ≤ n) :
    24 ≤ Nat.log2 n ∧
    2 ^ 23 ≤ n / 2 ^ (Nat.log2 n - 23) ∧ n / 2 ^ (Nat.log2 n - 23) < 2 ^ 24 := by
  have hn : n ≠ 0 := by
    have : 0 < 2 ^ 24 := by norm_num
    omega
  have he : 24 ≤ Nat.log2 n := (Nat.le_log2 hn).mpr h
  have hlo : 2 ^ Nat.log2 n ≤ n := Nat.log2_self_le hn
  have hhi : n < 2 ^ (Nat.log2 n + 1) := Nat.lt_log2_self
  have hP : 0 < 2 ^ (Nat.log2 n - 23) := Nat.pos_pow_of_pos _ (by norm_num)
  have e1 : 2 ^ Nat.log2 n = 2 ^ 23 * 2 ^ (Nat.log2 n - 23) := by
    rw [← pow_add]; congr 1; omega
  have e2 : 2 ^ (Nat.log2 n + 1) = 2 ^ 24 * 2 ^ (Nat.log2 n - 23) := by
    rw [← pow_add]; congr 1; omega
  refine ⟨he, ?_, ?_⟩
  · rw [Nat.le_div_iff_mul_le hP]
    omega
  · rw [Nat.div_lt_iff_lt_mul hP]
    omega

theorem Float32.roundNat_bounds (n : Nat) (h : 2 ^ 24 ≤ n) :
    n / 2 ^ (Nat.log2 n - 23) * 2 ^ (Nat.log2 n - 23) ≤ Float32.roundNat n ∧
    Float32.roundNat n ≤ (n / 2 ^ (Nat.log2 n - 23) + 1) * 2 ^ (Nat.log2 n - 23) := by
  have hlt : ¬ n < 2 ^ 24 := by omega
  have hstep : n / 2 ^ (Nat.log2 n - 23) * 2 ^ (Nat.log2 n - 23) ≤
      (n / 2 ^ (Nat.log2 n - 23) + 1) * 2 ^ (Nat.log2 n - 23) :=
    Nat.mul_le_mul_right _ (Nat.le_succ _)
  simp only [Float32.roundNat, Float32.roundAt, if_neg hlt]
  split_ifs
  · exact ⟨le_refl _, hstep⟩
  · exact ⟨le_refl _, hstep⟩
  · exact ⟨hstep, le_refl _⟩


theorem Float32.roundNat_ge_pow (n : Nat) (h : 2 ^ 24 ≤ n) :
    2 ^ Nat.log2 n ≤ Float32.roundNat n := by
  obtain ⟨he, hm, -⟩ := Float32.roundNat_digits n h
  have e1 : 2 ^ Nat.log2 n = 2 ^ 23 * 2 ^ (Nat.log2 n - 23) := by
    rw [← pow_add]; congr 1; omega
  calc 2 ^ Nat.log2 n = 2 ^ 23 * 2 ^ (Nat.log2 n - 23) := e1
    _ ≤ n / 2 ^ (Nat.log2 n - 23) * 2 ^ (Nat.log2 n - 23) := Nat.mul_le_mul_right _ hm
    _ ≤ Float32.roundNat n := (Float32.roundNat_bounds n h).1

theorem Float32.roundNat_le_pow (n : Nat) (h : 2 ^ 24 ≤ n) :
    Float32.roundNat n ≤ 2 ^ (Nat.log2 n + 1) := by
  obtain ⟨he, -, hm⟩ := Float32.roundNat_digits n h
  have e2 : 2 ^ (Nat.log2 n + 1) = 2 ^ 24 * 2 ^ (Nat.log2 n - 23) := by
    rw [← pow_add]; congr 1; omega
  calc Float32.roundNat n ≤ (n / 2 ^ (Nat.log2 n - 23) + 1) * 2 ^ (Nat.log2 n - 23) :=
        (Float32.roundNat_bounds n h).2
    _ ≤ 2 ^ 24 * 2 ^ (Nat.log2 n - 23) := Nat.mul_le_mul_right _ hm
    _ = 2 ^ (Nat.log2 n + 1) := e2.symm

theorem Float32.log2_mono (a b : Nat) (ha : a ≠ 0) (hab : a ≤ b) : Nat.log2 a ≤ Nat.log2 b := by
  have hb : b ≠ 0 := by omega
  exact (Nat.le_log2 hb).mpr (le_trans (Nat.log2_self_le ha) hab)

theorem Float32.roundNat_mono (a b : Nat) (hab : a ≤ b) :
    Float32.roundNat a ≤ Float32.roundNat b := by
  by_cases hb : b < 2 ^ 24
  · have ha : a < 2 ^ 24 := lt_of_le_of_lt hab hb
    rw [Float32.roundNat_small a ha, Float32.roundNat_small b hb]
    exact hab
  have hb24 : 2 ^ 24 ≤ b := by omega
  have hb0 : b ≠ 0 := by
    have : 0 < 2 ^ 24 := by norm_num
    omega
  by_cases ha : a < 2 ^ 24
  · rw [Float32.roundNat_small a ha]
    have h1 : 2 ^ 24 ≤ 2 ^ Nat.log2 b :=
      Nat.pow_le_pow_right (by norm_num) (Float32.roundNat_digits b hb24).1
    have h2 := Float32.roundNat_ge_pow b hb24
    omega
  have ha24 : 2 ^ 24 ≤ a := by omega
  have ha0 : a ≠ 0 := by
    have : 0 < 2 ^ 24 := by norm_num
    omega
  have hlog := Float32.log2_mono a b ha0 hab
  rcases Nat.lt_or_eq_of_le hlog with hlt | heq
  · calc Float32.roundNat a ≤ 2 ^ (Nat.log2 a + 1) := Float32.roundNat_le_pow a ha24
      _ ≤ 2 ^ Nat.log2 b := Nat.pow_le_pow_right (by norm_num) hlt
      _ ≤ Float32.roundNat b := Float32.roundNat_ge_pow b hb24
  · have hP : 0 < 2 ^ (Nat.log2 b - 23) := Nat.pos_pow_of_pos _ (by norm_num)
    have hdiv : a / 2 ^ (Nat.log2 b - 23) ≤ b / 2 ^ (Nat.log2 b - 23) :=
      Nat.div_le_div_right hab
    have hboundsA := Float32.roundNat_bounds a ha24
    have hboundsB := Float32.roundNat_bounds b hb24
    rw [heq] at hboundsA
    rcases Nat.lt_or_eq_of_le hdiv with hm | hm
    · calc Float32.roundNat a
          ≤ (a / 2 ^ (Nat.log2 b - 23) + 1) * 2 ^ (Nat.log2 b - 23) := hboundsA.2
        _ ≤ b / 2 ^ (Nat.log2 b - 23) * 2 ^ (Nat.log2 b - 23) := Nat.mul_le_mul_right _ hm
        _ ≤ Float32.roundNat b := hboundsB.1
    · -- same kept digits: the rest decides
      have hra : a % 2 ^ (Nat.log2 b - 23) ≤ b % 2 ^ (Nat.log2 b - 23) := by
        have h1 := Nat.div_add_mod a (2 ^ (Nat.log2 b - 23))
        have h2 := Nat.div_add_mod b (2 ^ (Nat.log2 b - 23))
        rw [hm] at h1
        omega
      have hna : ¬ a < 2 ^ 24 := ha
      have hnb : ¬ b < 2 ^ 24 := hb
      have hstep : b / 2 ^ (Nat.log2 b - 23) * 2 ^ (Nat.log2 b - 23) ≤
          (b / 2 ^ (Nat.log2 b - 23) + 1) * 2 ^ (Nat.log2 b - 23) :=
        Nat.mul_le_mul_right _ (Nat.le_succ _)
      simp only [Float32.roundNat, Float32.roundAt, if_neg hna, if_neg hnb, heq, hm]
      split_ifs <;> first | exact le_refl _ | exact hstep | omega


theorem Float32.roundNat_eval (n e : Nat) (hlo : 2 ^ (e + 24) ≤ n) (hhi : n < 2 ^ (e + 25)) :
    Float32.roundNat n = Float32.roundAt (e + 1) n := by
  have hlog : Nat.log2 n = e + 24 := Float32.log2_eq n (e + 24) hlo hhi
  have h24 : ¬ n < 2 ^ 24 := by
    have : 2 ^ 24 ≤ 2 ^ (e + 24) := Nat.pow_le_pow_right (by norm_num) (by omega)
    omega
  have hshift : e + 24 - 23 = e + 1 := by omega
  simp only [Float32.roundNat, if_neg h24, hlog, hshift]

theorem Float32.ofInt_neg_two :
    Float32.ofInt (-2) = Float32.finite (-2 * (Float32.unitsPerOne : Int)) := by
  have h : Float32.roundNat (2 ^ 150) = 2 ^ 150 := by
    rw [Float32.roundNat_eval (2 ^ 150) 126 (by decide) (by decide)]
    decide
  have hn : ((-2 : Int) * (Float32.unitsPerOne : Int)).natAbs = 2 ^ 150 := by decide
  unfold Float32.ofInt Float32.round
  simp only [hn, h]
  decide

theorem Float32.ofInt_twenty :
    Float32.ofInt 20 = Float32.finite (20 * (Float32.unitsPerOne : Int)) := by
  have h : Float32.roundNat (20 * 2 ^ 149) = 20 * 2 ^ 149 := by
    rw [Float32.roundNat_eval (20 * 2 ^ 149) 129 (by decide) (by decide)]
    decide
  have hn : ((20 : Int) * (Float32.unitsPerOne : Int)).natAbs = 20 * 2 ^ 149 := by decide
  unfold Float32.ofInt Float32.round
  simp only [hn, h]
  decide


theorem Float32.round_cases (s : Int) :
    (Float32.roundNat s.natAbs < 2 ^ 128 * Float32.unitsPerOne ∧
      Float32.round s =
        Float32.finite (if s < 0 then -(Float32.roundNat s.natAbs : Int)
          else (Float32.roundNat s.natAbs : Int))) ∨
    (¬ Float32.roundNat s.natAbs < 2 ^ 128 * Float32.unitsPerOne ∧
      Float32.round s = Float32.inf (decide (s < 0))) := by
  by_cases h : Float32.roundNat s.natAbs < 2 ^ 128 * Float32.unitsPerOne
  · exact Or.inl ⟨h, by simp only [Float32.round, if_pos h]⟩
  · exact Or.inr ⟨h, by simp only [Float32.round, if_neg h]⟩

theorem Float32.round_mono (s t : Int) (hst : s ≤ t) :
    Float32.le (Float32.round s) (Float32.round t) = true := by
  rcases Float32.round_cases s with ⟨hs, es⟩ | ⟨hs, es⟩ <;>
    rcases Float32.round_cases t with ⟨ht, et⟩ | ⟨ht, et⟩ <;>
    rw [es, et] <;> simp only [Float32.le, decide_eq_true_eq]
  · -- both finite
    by_cases hs0 : s < 0 <;> by_cases ht0 : t < 0 <;> simp only [hs0, ht0, if_true, if_false]
    · have hm := Float32.roundNat_mono t.natAbs s.natAbs (by omega)
      omega
    · omega
    · omega
    · have hm := Float32.roundNat_mono s.natAbs t.natAbs (by omega)
      omega
  · -- s finite, t infinite
    by_cases ht0 : t < 0
    · have hm := Float32.roundNat_mono t.natAbs s.natAbs (by omega)
      omega
    · simp [ht0]
  · -- s infinite, t finite
    by_cases hs0 : s < 0
    · simp [hs0]
    · have hm := Float32.roundNat_mono s.natAbs t.natAbs (by omega)
      omega
  · -- both infinite
    by_cases hs0 : s < 0
    · simp [hs0]
    · have ht0 : ¬ t < 0 := by omega
      simp [hs0, ht0]


theorem Float32.roundNat_error (n : Nat) :
    Float32.roundNat n * 2 ^ 24 ≤ n * 2 ^ 24 + n ∧
    n * 2 ^ 24 ≤ Float32.roundNat n * 2 ^ 24 + n := by
  by_cases h : n < 2 ^ 24
  · rw [Float32.roundNat_small n h]
    omega
  have h24 : 2 ^ 24 ≤ n := by omega
  obtain ⟨he, hm, -⟩ := Float32.roundNat_digits n h24
  have hdm := Nat.div_add_mod n (2 ^ (Nat.log2 n - 23))
  have hmP : 2 ^ 23 * 2 ^ (Nat.log2 n - 23) ≤
      n / 2 ^ (Nat.log2 n - 23) * 2 ^ (Nat.log2 n - 23) := Nat.mul_le_mul_right _ hm
  have hcomm : 2 ^ (Nat.log2 n - 23) * (n / 2 ^ (Nat.log2 n - 23)) =
      n / 2 ^ (Nat.log2 n - 23) * 2 ^ (Nat.log2 n - 23) := Nat.mul_comm _ _
  have hsucc : (n / 2 ^ (Nat.log2 n - 23) + 1) * 2 ^ (Nat.log2 n - 23) =
      n / 2 ^ (Nat.log2 n - 23) * 2 ^ (Nat.log2 n - 23) + 2 ^ (Nat.log2 n - 23) :=
    Nat.succ_mul _ _
  have hrest : n % 2 ^ (Nat.log2 n - 23) < 2 ^ (Nat.log2 n - 23) :=
    Nat.mod_lt _ (Nat.pos_pow_of_pos _ (by norm_num))
  simp only [Float32.roundNat, Float32.roundAt, if_neg h]
  split_ifs with h1 h2
  · omega
  · omega
  · rw [hsucc]
    omega


theorem Float32.add_offsets_le (n : Float32) (hn : n ≠ Float32.nan) :
    Float32.le (Float32.add n (Float32.ofInt (-2))) (Float32.add n (Float32.ofInt 20)) = true := by
  rw [Float32.ofInt_neg_two, Float32.ofInt_twenty]
  cases n with
  | finite k =>
    simp only [Float32.add]
    apply Float32.round_mono
    have hU : (0 : Int) ≤ (Float32.unitsPerOne : Int) := Int.ofNat_nonneg _
    omega
  | inf negative => cases negative <;> rfl
  | nan => exact absurd rfl hn

theorem Float32.round_error (s : Int)
    (hfin : Float32.roundNat s.natAbs < 2 ^ 128 * Float32.unitsPerOne) :
    ∃ v : Int, Float32.round s = Float32.finite v ∧
      (v - s) * 2 ^ 24 ≤ (s.natAbs : Int) ∧ (s - v) * 2 ^ 24 ≤ (s.natAbs : Int) := by
  obtain ⟨h1, h2⟩ := Float32.roundNat_error s.natAbs
  refine ⟨if s < 0 then -(Float32.roundNat s.natAbs : Int) else (Float32.roundNat s.natAbs : Int),
    by simp only [Float32.round, if_pos hfin], ?_⟩
  by_cases hs : s < 0
  · simp only [hs, if_true]
    omega
  · simp only [hs, if_false]
    omega

theorem Float32.add_offsets_lt (k : Int) (hk : k.natAbs ≤ 2 ^ 24 * Float32.unitsPerOne) :
    Float32.lt (Float32.add (Float32.finite k) (Float32.ofInt (-2)))
      (Float32.add (Float32.finite k) (Float32.ofInt 20)) = true := by
  rw [Float32.ofInt_neg_two, Float32.ofInt_twenty]
  simp only [Float32.add]
  have hUn : Float32.unitsPerOne = 2 ^ 149 := rfl
  have hfin : ∀ s : Int, s.natAbs ≤ (2 ^ 24 + 20) * Float32.unitsPerOne →
      Float32.roundNat s.natAbs < 2 ^ 128 * Float32.unitsPerOne := by
    intro s hs
    obtain ⟨h1, -⟩ := Float32.roundNat_error s.natAbs
    rw [hUn] at hs ⊢
    omega
  have hx : (k + -2 * (Float32.unitsPerOne : Int)).natAbs ≤
      (2 ^ 24 + 20) * Float32.unitsPerOne := by
    simp only [hUn] at hk ⊢
    omega
  have hy : (k + 20 * (Float32.unitsPerOne : Int)).natAbs ≤
      (2 ^ 24 + 20) * Float32.unitsPerOne := by
    simp only [hUn] at hk ⊢
    omega
  obtain ⟨vx, ex, hx1, hx2⟩ := Float32.round_error _ (hfin _ hx)
  obtain ⟨vy, ey, hy1, hy2⟩ := Float32.round_error _ (hfin _ hy)
  rw [ex, ey]
  simp only [Float32.lt, decide_eq_true_eq]
  simp only [hUn] at hx hy hx1 hx2 hy1 hy2
  omega



theorem Float32.round_eval (s : Int) (e : Nat) (hlo : 2 ^ (e + 24) ≤ s.natAbs)
    (hhi : s.natAbs < 2 ^ (e + 25)) :
    Float32.round s =
      if Float32.roundAt (e + 1) s.natAbs < 2 ^ 128 * Float32.unitsPerOne then
        Float32.finite (if s < 0 then -(Float32.roundAt (e + 1) s.natAbs : Int)
          else (Float32.roundAt (e + 1) s.natAbs : Int))
      else Float32.inf (decide (s < 0)) := by
  simp only [Float32.round, Float32.roundNat_eval s.natAbs e hlo hhi]

theorem float1e10_add_neg_two : Float32.add float1e10 (Float32.ofInt (-2)) = float1e10 := by
  rw [Float32.ofInt_neg_two]
  simp only [float1e10, Float32.add]
  rw [Float32.round_eval _ 158 (by decide) (by decide)]
  decide


theorem float1e10_add_twenty : Float32.add float1e10 (Float32.ofInt 20) = float1e10 := by
  rw [Float32.ofInt_twenty]
  simp only [float1e10, Float32.add]
  rw [Float32.round_eval _ 158 (by decide) (by decide)]
  decide

theorem float0_08_add_neg_two :
    Float32.add float0_08 (Float32.ofInt (-2)) =
      Float32.finite (-((16106127 * 2 ^ 126 : Nat) : Int)) := by
  rw [Float32.ofInt_neg_two]
  simp only [float0_08, Float32.add]
  rw [Float32.round_eval _ 125 (by decide) (by decide)]
  decide

theorem float0_08_add_twenty :
    Float32.add float0_08 (Float32.ofInt 20) =
      Float32.finite ((10527703 * 2 ^ 130 : Nat) : Int) := by
  rw [Float32.ofInt_twenty]
  simp only [float0_08, Float32.add]
  rw [Float32.round_eval _ 129 (by decide) (by decide)]
  decide

theorem one_add_neg_two :
    Float32.add (Float32.finite (1 * Float32.unitsPerOne)) (Float32.ofInt (-2)) =
      Float32.finite (-1 * Float32.unitsPerOne) := by
  rw [Float32.ofInt_neg_two]
  simp only [Float32.add]
  rw [Float32.round_eval _ 125 (by decide) (by decide)]
  decide

theorem one_add_twenty :
    Float32.add (Float32.finite (1 * Float32.unitsPerOne)) (Float32.ofInt 20) =
      Float32.finite (21 * Float32.unitsPerOne) := by
  rw [Float32.ofInt_twenty]
  simp only [Float32.add]
  rw [Float32.round_eval _ 129 (by decide) (by decide)]
  decide

/-! ## Properties of `RenderShadowTask::run` and of the constructor -/

/-- C1: restoration invariant of `RenderShadowTask::run`. In every call with a
valid scene, render args present and a non-null primary light, and for every
list of jobs and every behaviour of the jobs, the `_viewFrustum` pointer of the
render args at return equals the pointer held on entry. The call does return
whenever the jobs return and the entry pointer, which the code dereferences
for its near clip, is not null. -/
theorem RenderShadowTask.run_restores_viewFrustum (exec : Job → World → Option World)
    (task : Task) (w : World) (scene args globalLight : Ptr)
    (hscene : w.scene = some scene) (hargs : w.args = some args)
    (hlight : w.lights[0]? = some (some globalLight)) :
    (∀ r, RenderShadowTask.run exec task w = some r →
      (r.1.argsMem args)._viewFrustum = (w.argsMem args)._viewFrustum) ∧
    ((∀ job w1, (exec job w1).isSome) → (w.argsMem args)._viewFrustum ≠ none →
      (RenderShadowTask.run exec task w).isSome) := by
  cases hvf : (w.argsMem args)._viewFrustum with
  | none =>
    refine ⟨?_, fun _ h => absurd rfl h⟩
    intro r hr
    simp [RenderShadowTask.run, hscene, hargs, hlight, hvf] at hr
  | some viewFrustum =>
    rw [RenderShadowTask.run_passing exec task w scene args globalLight viewFrustum
      hscene hargs hlight hvf]
    refine ⟨?_, ?_⟩
    · intro r hr
      obtain ⟨r3, -, rfl⟩ := Option.map_eq_some'.mp hr
      simp [World.setViewFrustum, store_same]
    · intro hexec _
      simpa using runJobs_isSome exec hexec task._jobs _

/-- The restoration invariant at the shadow task in a lit frame whose jobs all
overwrite the frustum pointer of the render args. -/
theorem RenderShadowTask.run_restores_viewFrustum_witness :
    sampleWorld.scene = some 0 ∧ sampleWorld.args = some 1 ∧
    sampleWorld.lights[0]? = some (some 2) ∧
    ((∀ r, RenderShadowTask.run clobberingExec RenderShadowTask.new sampleWorld = some r →
      (r.1.argsMem 1)._viewFrustum = (sampleWorld.argsMem 1)._viewFrustum) ∧
    ((∀ job w1, (clobberingExec job w1).isSome) → (sampleWorld.argsMem 1)._viewFrustum ≠ none →
      (RenderShadowTask.run clobberingExec RenderShadowTask.new sampleWorld).isSome)) :=
  ⟨rfl, rfl, rfl,
    RenderShadowTask.run_restores_viewFrustum clobberingExec RenderShadowTask.new sampleWorld
      0 1 2 rfl rfl rfl⟩

/-- C2: no-op on a missing precondition. When the scene context holds no scene, or
the render args are null, or the primary light `lightStage.lights[0]` is null,
`RenderShadowTask::run` returns, the world (render context and the
`_viewFrustum` of the args included) is the one of entry, and no outside call
was made: no job was invoked and `setKeylightFrustum` was not called. -/
theorem RenderShadowTask.run_noop_on_missing_precondition (exec : Job → World → Option World)
    (task : Task) (w : World)
    (h : w.scene = none ∨ w.args = none ∨ w.lights[0]? = some none) :
    RenderShadowTask.run exec task w = some (w, []) := by
  rcases h with h | h | h
  · simp [RenderShadowTask.run, h]
  · cases hs : w.scene <;> simp [RenderShadowTask.run, h, hs]
  · cases hs : w.scene with
    | none => simp [RenderShadowTask.run, hs]
    | some sc =>
      cases ha : w.args with
      | none => simp [RenderShadowTask.run, hs, ha]
      | some a => simp [RenderShadowTask.run, hs, ha, h]

/-- The no-op in a frame whose primary light is null. -/
theorem RenderShadowTask.run_noop_on_missing_precondition_witness :
    (unlitWorld.scene = none ∨ unlitWorld.args = none ∨ unlitWorld.lights[0]? = some none) ∧
    RenderShadowTask.run clobberingExec RenderShadowTask.new unlitWorld = some (unlitWorld, []) :=
  ⟨Or.inr (Or.inr rfl),
    RenderShadowTask.run_noop_on_missing_precondition clobberingExec RenderShadowTask.new
      unlitWorld (Or.inr (Or.inr rfl))⟩

/-- C3, as stated, fails: the bounds are float sums. With the near clip 1e10f both
sums round back to 1e10f, so the near bound equals the far bound and is not
below it. With the near clip 0.08f the near bound is -1.91999995708465576,
not the exact sum, and the far bound 20.0799999237060547 is less than 22
above it. -/
theorem RenderShadowTask.run_keylight_bounds_rounded :
    (∃ r, RenderShadowTask.run idleExec RenderShadowTask.new
        (worldWithClips float1e10 (Float32.finite (20000000000 * Float32.unitsPerOne))) = some r ∧
      keylightCalls r.2 = [(2, 5, float1e10, float1e10)] ∧
      Float32.lt float1e10 float1e10 = false ∧
      Float32.unitsBetween float1e10 float1e10 = some 0) ∧
    (∃ r, RenderShadowTask.run idleExec RenderShadowTask.new
        (worldWithClips float0_08 (Float32.finite (100 * Float32.unitsPerOne))) = some r ∧
      keylightCalls r.2 =
        [(2, 5, Float32.finite (-((16106127 * 2 ^ 126 : Nat) : Int)),
          Float32.finite ((10527703 * 2 ^ 130 : Nat) : Int))] ∧
      Float32.finite (-((16106127 * 2 ^ 126 : Nat) : Int)) ≠
        Float32.finite (((10737418 * 2 ^ 122 : Nat) : Int) - 2 * Float32.unitsPerOne) ∧
      Float32.unitsBetween (Float32.finite (-((16106127 * 2 ^ 126 : Nat) : Int)))
        (Float32.finite ((10527703 * 2 ^ 130 : Nat) : Int)) ≠
        some (22 * (Float32.unitsPerOne : Int))) := by
  refine ⟨?_, ?_⟩
  · rw [RenderShadowTask.run_passing idleExec RenderShadowTask.new
      (worldWithClips float1e10 (Float32.finite (20000000000 * Float32.unitsPerOne)))
      0 1 2 5 rfl rfl rfl rfl, runJobs_idleExec]
    refine ⟨_, rfl, ?_, by decide, by decide⟩
    have hn : ((worldWithClips float1e10
        (Float32.finite (20000000000 * Float32.unitsPerOne))).frustumMem 5).nearClip =
        float1e10 := rfl
    simp only [keylightCalls, keylightCalls_map, hn, float1e10_add_neg_two,
      float1e10_add_twenty]
  · rw [RenderShadowTask.run_passing idleExec RenderShadowTask.new
      (worldWithClips float0_08 (Float32.finite (100 * Float32.unitsPerOne)))
      0 1 2 5 rfl rfl rfl rfl, runJobs_idleExec]
    refine ⟨_, rfl, ?_, by decide, by decide⟩
    have hn : ((worldWithClips float0_08
        (Float32.finite (100 * Float32.unitsPerOne))).frustumMem 5).nearClip =
        float0_08 := rfl
    simp only [keylightCalls, keylightCalls_map, hn, float0_08_add_neg_two,
      float0_08_add_twenty]

/-- C3, amended: in a call of `RenderShadowTask::run` that passes its preconditions,
with `n` the near clip of the frustum the render args hold on entry,
`setKeylightFrustum` is called exactly once, on the primary light, with that
entry frustum, near bound the float sum `n + (-2)` and far bound the float
sum `n + 20`. The near bound is never above the far bound unless `n` is NaN,
it is below the far bound whenever `n` is finite of magnitude at most 2^24,
and the bounds are the exact `n - 2` and `n + 20`, 22 apart, whenever these
two sums are floats. The call returns whenever the jobs return. -/
theorem RenderShadowTask.run_derives_keylight_frustum (exec : Job → World → Option World)
    (task : Task) (w : World) (scene args globalLight viewFrustum : Ptr)
    (hscene : w.scene = some scene) (hargs : w.args = some args)
    (hlight : w.lights[0]? = some (some globalLight))
    (hvf : (w.argsMem args)._viewFrustum = some viewFrustum) :
    (∀ r, RenderShadowTask.run exec task w = some r →
      keylightCalls r.2 = [(globalLight, viewFrustum,
        Float32.add (w.frustumMem viewFrustum).nearClip (Float32.ofInt (-2)),
        Float32.add (w.frustumMem viewFrustum).nearClip (Float32.ofInt 20))]) ∧
    ((∀ job w1, (exec job w1).isSome) → (RenderShadowTask.run exec task w).isSome) ∧
    ((w.frustumMem viewFrustum).nearClip ≠ Float32.nan →
      Float32.le (Float32.add (w.frustumMem viewFrustum).nearClip (Float32.ofInt (-2)))
        (Float32.add (w.frustumMem viewFrustum).nearClip (Float32.ofInt 20)) = true) ∧
    (∀ k : Int, (w.frustumMem viewFrustum).nearClip = Float32.finite k →
      k.natAbs ≤ 2 ^ 24 * Float32.unitsPerOne →
      Float32.lt (Float32.add (w.frustumMem viewFrustum).nearClip (Float32.ofInt (-2)))
        (Float32.add (w.frustumMem viewFrustum).nearClip (Float32.ofInt 20)) = true) ∧
    (∀ k : Int, (w.frustumMem viewFrustum).nearClip = Float32.finite k →
      Float32.round (k + -2 * Float32.unitsPerOne) =
        Float32.finite (k + -2 * Float32.unitsPerOne) →
      Float32.round (k + 20 * Float32.unitsPerOne) =
        Float32.finite (k + 20 * Float32.unitsPerOne) →
      Float32.add (w.frustumMem viewFrustum).nearClip (Float32.ofInt (-2)) =
        Float32.finite (k + -2 * Float32.unitsPerOne) ∧
      Float32.add (w.frustumMem viewFrustum).nearClip (Float32.ofInt 20) =
        Float32.finite (k + 20 * Float32.unitsPerOne) ∧
      Float32.unitsBetween
        (Float32.add (w.frustumMem viewFrustum).nearClip (Float32.ofInt (-2)))
        (Float32.add (w.frustumMem viewFrustum).nearClip (Float32.ofInt 20)) =
        some (22 * (Float32.unitsPerOne : Int))) := by
  rw [RenderShadowTask.run_passing exec task w scene args globalLight viewFrustum
    hscene hargs hlight hvf]
  refine ⟨?_, ?_, ?_, ?_, ?_⟩
  · intro r hr
    obtain ⟨r3, hr3, rfl⟩ := Option.map_eq_some'.mp hr
    have hev := runJobs_events exec task._jobs _ r3 hr3
    simp [keylightCalls, hev, keylightCalls_map]
  · intro hexec
    simpa using runJobs_isSome exec hexec task._jobs _
  · exact Float32.add_offsets_le _
  · intro k hk hsmall
    rw [hk]
    exact Float32.add_offsets_lt k hsmall
  · intro k hk hnear hfar
    rw [hk, Float32.ofInt_neg_two, Float32.ofInt_twenty]
    simp only [Float32.add, hnear, hfar, Float32.unitsBetween]
    refine ⟨trivial, trivial, ?_⟩
    congr 1
    ring

/-- The derivation of the light frustum in a lit frame whose camera has near
clip 1: the bounds are -1 and 21. -/
theorem RenderShadowTask.run_derives_keylight_frustum_witness :
    sampleWorld.scene = some 0 ∧ sampleWorld.args = some 1 ∧
    sampleWorld.lights[0]? = some (some 2) ∧
    (sampleWorld.argsMem 1)._viewFrustum = some 5 ∧
    (sampleWorld.frustumMem 5).nearClip = Float32.finite (1 * Float32.unitsPerOne) ∧
    Float32.add (Float32.finite (1 * Float32.unitsPerOne)) (Float32.ofInt (-2)) =
      Float32.finite (-1 * Float32.unitsPerOne) ∧
    Float32.add (Float32.finite (1 * Float32.unitsPerOne)) (Float32.ofInt 20) =
      Float32.finite (21 * Float32.unitsPerOne) ∧
    (∀ r, RenderShadowTask.run idleExec RenderShadowTask.new sampleWorld = some r →
      keylightCalls r.2 = [(2, 5,
        Float32.add (sampleWorld.frustumMem 5).nearClip (Float32.ofInt (-2)),
        Float32.add (sampleWorld.frustumMem 5).nearClip (Float32.ofInt 20))]) ∧
    Float32.lt (Float32.add (sampleWorld.frustumMem 5).nearClip (Float32.ofInt (-2)))
      (Float32.add (sampleWorld.frustumMem 5).nearClip (Float32.ofInt 20)) = true :=
  have h := RenderShadowTask.run_derives_keylight_frustum idleExec RenderShadowTask.new
    sampleWorld 0 1 2 5 rfl rfl rfl rfl
  ⟨rfl, rfl, rfl, rfl, rfl, one_add_neg_two, one_add_twenty, h.1,
    h.2.2.2.1 (1 * Float32.unitsPerOne) rfl (by decide)⟩

/-- C6: job order. The constructor appends exactly five jobs, named
FetchShadowMap, CullShadowMap, PipelineSortShadowSort, DepthSortShadowMap,
RenderShadowMap in this order, the first without input and each later one
bound to the output of the job before it; and in every call of `run` that
passes its preconditions the jobs invoked are the jobs of the task, each once,
in declaration order. The call returns whenever the jobs return and the entry
frustum pointer is not null. -/
theorem RenderShadowTask.jobs_declared_and_run_in_order (exec : Job → World → Option World)
    (task : Task) (w : World) (scene args globalLight : Ptr)
    (hscene : w.scene = some scene) (hargs : w.args = some args)
    (hlight : w.lights[0]? = some (some globalLight)) :
    RenderShadowTask.new._jobs.map Job.name =
      ["FetchShadowMap", "CullShadowMap", "PipelineSortShadowSort", "DepthSortShadowMap",
        "RenderShadowMap"] ∧
    RenderShadowTask.new._jobs.map Job.input =
      [none, some ⟨0⟩, some ⟨1⟩, some ⟨2⟩, some ⟨3⟩] ∧
    RenderShadowTask.new._jobs.map Job.model =
      [JobModel.FetchItems, JobModel.CullItems RenderDetails.SHADOW_ITEM,
        JobModel.PipelineSortShapes, JobModel.DepthSortShapes,
        JobModel.RenderShadowMap RenderShadowTask.shapePlumber] ∧
    (∀ r, RenderShadowTask.run exec task w = some r → jobsRun r.2 = task._jobs) ∧
    ((∀ job w1, (exec job w1).isSome) → (w.argsMem args)._viewFrustum ≠ none →
      (RenderShadowTask.run exec task w).isSome) := by
  refine ⟨rfl, rfl, rfl, ?_⟩
  cases hvf : (w.argsMem args)._viewFrustum with
  | none =>
    refine ⟨?_, fun _ h => absurd rfl h⟩
    intro r hr
    simp [RenderShadowTask.run, hscene, hargs, hlight, hvf] at hr
  | some viewFrustum =>
    rw [RenderShadowTask.run_passing exec task w scene args globalLight viewFrustum
      hscene hargs hlight hvf]
    refine ⟨?_, ?_⟩
    · intro r hr
      obtain ⟨r3, hr3, rfl⟩ := Option.map_eq_some'.mp hr
      have hev := runJobs_events exec task._jobs _ r3 hr3
      simp [jobsRun, hev, jobsRun_map]
    · intro hexec _
      simpa using runJobs_isSome exec hexec task._jobs _

/-- The job order at the constructed shadow task in a lit frame. -/
theorem RenderShadowTask.jobs_declared_and_run_in_order_witness :
    sampleWorld.scene = some 0 ∧ sampleWorld.args = some 1 ∧
    sampleWorld.lights[0]? = some (some 2) ∧
    (∀ r, RenderShadowTask.run idleExec RenderShadowTask.new sampleWorld = some r →
      jobsRun r.2 = RenderShadowTask.new._jobs) ∧
    (RenderShadowTask.run idleExec RenderShadowTask.new sampleWorld).isSome :=
  have h := RenderShadowTask.jobs_declared_and_run_in_order idleExec RenderShadowTask.new
    sampleWorld 0 1 2 rfl rfl rfl
  ⟨rfl, rfl, rfl, h.2.2.2.1, h.2.2.2.2 (fun _ _ => rfl) (by simp [sampleWorld])⟩

/-- C9, as stated, fails: in a lit frame whose camera has near clip 1, with the
five jobs of the shadow task leaving the world as it is, `run` returns and
the frustum of the shadow of the primary light, which had clip bounds 1 and
100 on entry, has bounds -1 and 21 at return. -/
theorem RenderShadowTask.run_overwrites_shadow_frustum :
    ∃ r, RenderShadowTask.run idleExec RenderShadowTask.new sampleWorld = some r ∧
      sampleWorld.shadowFrustum 2 =
        ⟨Float32.finite (1 * Float32.unitsPerOne), Float32.finite (100 * Float32.unitsPerOne)⟩ ∧
      r.1.shadowFrustum 2 =
        ⟨Float32.finite (-1 * Float32.unitsPerOne), Float32.finite (21 * Float32.unitsPerOne)⟩ ∧
      r.1.shadowFrustum 2 ≠ sampleWorld.shadowFrustum 2 := by
  rw [RenderShadowTask.run_passing idleExec RenderShadowTask.new sampleWorld 0 1 2 5
    rfl rfl rfl rfl, runJobs_idleExec]
  have hn : (sampleWorld.frustumMem 5).nearClip = Float32.finite (1 * Float32.unitsPerOne) :=
    rfl
  have hafter : ((setKeylightFrustum 2 5
      (Float32.add (sampleWorld.frustumMem 5).nearClip (Float32.ofInt (-2)))
      (Float32.add (sampleWorld.frustumMem 5).nearClip (Float32.ofInt 20))
      sampleWorld).setViewFrustum 1 (some (sampleWorld.lightMem 2).shadow.frustum)
      |>.setViewFrustum 1 (some 5)).shadowFrustum 2 =
      ⟨Float32.finite (-1 * Float32.unitsPerOne), Float32.finite (21 * Float32.unitsPerOne)⟩ := by
    rw [hn, one_add_neg_two, one_add_twenty]
    simp [World.shadowFrustum, World.setViewFrustum, setKeylightFrustum, store_same]
  refine ⟨_, rfl, rfl, hafter, ?_⟩
  intro h
  have hsame : (⟨Float32.finite (-1 * Float32.unitsPerOne),
      Float32.finite (21 * Float32.unitsPerOne)⟩ : ViewFrustum) =
      ⟨Float32.finite (1 * Float32.unitsPerOne), Float32.finite (100 * Float32.unitsPerOne)⟩ :=
    hafter.symm.trans h
  exact absurd hsame (by decide)

/-- C9, amended: `run` writes the shadow state of the light. When a precondition
fails nothing is written: the world at return is the world of entry and no
call is made. In a call that passes its preconditions `setKeylightFrustum`
is called on the shadow of the primary light, once and before every job,
with the entry frustum and the float sums `n + (-2)` and `n + 20` of its near
clip `n`; the jobs start in a world where the frustum of that shadow has
these two bounds and the render args point to it; at return the frustum
pointer of the render args is the entry pointer, and the frustum of the
shadow still has the two bounds when the jobs leave the lights and the
frustum objects as they find them. The call returns whenever the jobs
return. -/
theorem RenderShadowTask.run_derives_shadow_frustum (exec : Job → World → Option World)
    (task : Task) (w : World) :
    ((w.scene = none ∨ w.args = none ∨ w.lights[0]? = some none) →
      RenderShadowTask.run exec task w = some (w, [])) ∧
    (∀ scene args globalLight viewFrustum : Ptr,
      w.scene = some scene → w.args = some args →
      w.lights[0]? = some (some globalLight) →
      (w.argsMem args)._viewFrustum = some viewFrustum →
      (∀ r, RenderShadowTask.run exec task w = some r →
        r.2 = Event.setKeylightFrustum globalLight viewFrustum
            (Float32.add (w.frustumMem viewFrustum).nearClip (Float32.ofInt (-2)))
            (Float32.add (w.frustumMem viewFrustum).nearClip (Float32.ofInt 20))
          :: task._jobs.map Event.jobRun ∧
        (∃ w0 r0, runJobs exec task._jobs w0 = some r0 ∧
          r.1 = r0.1.setViewFrustum args (some viewFrustum) ∧
          (w0.shadowFrustum globalLight).nearClip =
            Float32.add (w.frustumMem viewFrustum).nearClip (Float32.ofInt (-2)) ∧
          (w0.shadowFrustum globalLight).farClip =
            Float32.add (w.frustumMem viewFrustum).nearClip (Float32.ofInt 20) ∧
          (w0.argsMem args)._viewFrustum = some (w0.lightMem globalLight).shadow.frustum) ∧
        (r.1.argsMem args)._viewFrustum = some viewFrustum ∧
        ((∀ job w1 w2, exec job w1 = some w2 →
            (w2.lightMem, w2.frustumMem) = (w1.lightMem, w1.frustumMem)) →
          (r.1.shadowFrustum globalLight).nearClip =
            Float32.add (w.frustumMem viewFrustum).nearClip (Float32.ofInt (-2)) ∧
          (r.1.shadowFrustum globalLight).farClip =
            Float32.add (w.frustumMem viewFrustum).nearClip (Float32.ofInt 20))) ∧
      ((∀ job w1, (exec job w1).isSome) → (RenderShadowTask.run exec task w).isSome)) := by
  refine ⟨RenderShadowTask.run_failing exec task w, ?_⟩
  intro scene args globalLight viewFrustum hscene hargs hlight hvf
  rw [RenderShadowTask.run_passing exec task w scene args globalLight viewFrustum
    hscene hargs hlight hvf]
  refine ⟨?_, ?_⟩
  · intro r hr
    obtain ⟨r3, hr3, rfl⟩ := Option.map_eq_some'.mp hr
    have hev := runJobs_events exec task._jobs _ r3 hr3
    have hstart : ∀ a b : Float32,
        (((setKeylightFrustum globalLight viewFrustum a b w).setViewFrustum args
          (some (w.lightMem globalLight).shadow.frustum)).shadowFrustum globalLight) =
          ⟨a, b⟩ := by
      intro a b
      simp [World.shadowFrustum, World.setViewFrustum, setKeylightFrustum, store_same]
    refine ⟨by rw [hev], ⟨_, r3, hr3, rfl, ?_, ?_, ?_⟩, ?_, ?_⟩
    · rw [hstart]
    · rw [hstart]
    · simp [World.setViewFrustum, setKeylightFrustum, store_same]
    · simp [World.setViewFrustum, store_same]
    · intro hjobs
      have hkeep := runJobs_preserves (fun v => (v.lightMem, v.frustumMem)) exec hjobs
        task._jobs _ r3 hr3
      have hsf : (r3.1.setViewFrustum args (some viewFrustum)).shadowFrustum globalLight =
          ((setKeylightFrustum globalLight viewFrustum
            (Float32.add (w.frustumMem viewFrustum).nearClip (Float32.ofInt (-2)))
            (Float32.add (w.frustumMem viewFrustum).nearClip (Float32.ofInt 20))
            w).setViewFrustum args
              (some (w.lightMem globalLight).shadow.frustum)).shadowFrustum globalLight := by
        simp only [Prod.mk.injEq] at hkeep
        simp only [World.shadowFrustum, World.setViewFrustum] at hkeep ⊢
        rw [hkeep.1, hkeep.2]
      rw [hsf, hstart]
      exact ⟨rfl, rfl⟩
  · intro hexec
    simpa using runJobs_isSome exec hexec task._jobs _

/-- The amended C9 at the shadow task in a lit frame with idle jobs, and in the
frame without a primary light. -/
theorem RenderShadowTask.run_derives_shadow_frustum_witness :
    (unlitWorld.scene = none ∨ unlitWorld.args = none ∨ unlitWorld.lights[0]? = some none) ∧
    RenderShadowTask.run idleExec RenderShadowTask.new unlitWorld = some (unlitWorld, []) ∧
    sampleWorld.scene = some 0 ∧ sampleWorld.args = some 1 ∧
    sampleWorld.lights[0]? = some (some 2) ∧
    (sampleWorld.argsMem 1)._viewFrustum = some 5 ∧
    (∀ job w1 w2, idleExec job w1 = some w2 →
      (w2.lightMem, w2.frustumMem) = (w1.lightMem, w1.frustumMem)) ∧
    (RenderShadowTask.run idleExec RenderShadowTask.new sampleWorld).isSome :=
  have hidle : ∀ job w1 w2, idleExec job w1 = some w2 →
      (w2.lightMem, w2.frustumMem) = (w1.lightMem, w1.frustumMem) := by
    intro job w1 w2 h
    simp only [idleExec, Option.some.injEq] at h
    subst h
    rfl
  ⟨Or.inr (Or.inr rfl),
    (RenderShadowTask.run_derives_shadow_frustum idleExec RenderShadowTask.new unlitWorld).1
      (Or.inr (Or.inr rfl)),
    rfl, rfl, rfl, rfl, hidle,
    ((RenderShadowTask.run_derives_shadow_frustum idleExec RenderShadowTask.new sampleWorld).2
      0 1 2 5 rfl rfl rfl rfl).2 (fun _ _ => rfl)⟩

/-! ## Lemmas on the render job -/

theorem find_entry_of_mem (l : List (ShapeKey × ItemIDsBounds))
    (hl : (l.map Prod.fst).Nodup) (e : ShapeKey × ItemIDsBounds) (he : e ∈ l) :
    (l.find? (fun x => x.1 == e.1)).map Prod.snd = some e.2 := by
  induction l with
  | nil => simp at he
  | cons x rest ih =>
    rw [List.map_cons, List.nodup_cons] at hl
    rcases List.mem_cons.mp he with h | h
    · subst h
      simp
    · have hne : x.1 ≠ e.1 := by
        intro heq
        exact hl.1 (heq ▸ List.mem_map_of_mem Prod.fst h)
      have hb : (x.1 == e.1) = false := by simpa using hne
      rw [List.find?_cons, hb]
      exact ih hl.2 h

theorem ShapesIDsBounds.at_of_mem (m : ShapesIDsBounds) (e : ShapeKey × ItemIDsBounds)
    (he : e ∈ m.entries) : m.at e.1 = some e.2 :=
  find_entry_of_mem m.entries m.nodup e he

theorem foldl_unskinned (w : World) (args : Ptr) (es : List (ShapeKey × ItemIDsBounds))
    (batch : Batch) (keys : List ShapeKey) :
    es.foldl
      (fun (acc : Batch × List ShapeKey) items =>
        if items.1.isSkinned then (acc.1, acc.2 ++ [items.1])
        else (renderItems w args acc.1 items.2, acc.2))
      (batch, keys) =
    (batch ++ (es.filter (fun e => !e.1.isSkinned)).map
        (fun e => Command.renderItems (w.argsMem args)._pipeline e.2),
      keys ++ (es.filter (fun e => e.1.isSkinned)).map Prod.fst) := by
  induction es generalizing batch keys with
  | nil => simp
  | cons e rest ih =>
    rw [List.foldl_cons]
    cases hs : e.1.isSkinned with
    | true =>
      simp only [hs, if_true]
      rw [ih]
      simp [hs]
    | false =>
      simp only [hs, Bool.false_eq_true, if_false]
      rw [ih]
      simp [hs, renderItems]

theorem foldlM_skinned (w : World) (args : Ptr) (m : ShapesIDsBounds)
    (es : List (ShapeKey × ItemIDsBounds)) (hes : ∀ e ∈ es, e ∈ m.entries) (batch : Batch) :
    (es.map Prod.fst).foldlM
      (fun (b : Batch) key => (m.at key).map (renderItems w args b)) batch =
    some (batch ++ es.map (fun e => Command.renderItems (w.argsMem args)._pipeline e.2)) := by
  induction es generalizing batch with
  | nil => simp
  | cons e rest ih =>
    have he : m.at e.1 = some e.2 := m.at_of_mem e (hes e (List.mem_cons_self _ _))
    have hrest : ∀ x ∈ rest, x ∈ m.entries := fun x hx => hes x (List.mem_cons_of_mem _ hx)
    simp [List.foldlM_cons, he, ih hrest, renderItems]

theorem pipeline_setPipeline (w : World) (args : Ptr) (p : Option ShapePipeline) :
    ((w.setPipeline args p).argsMem args)._pipeline = p := by
  simp [World.setPipeline, store_same]

/-- What a call of `RenderShadowMap::run` records when its asserts hold, the
primary light is set and both pipelines are found. -/
theorem RenderShadowMap.run_batch (sp : ShapePlumber) (w : World) (m : ShapesIDsBounds)
    (args viewFrustum globalLight : Ptr) (p q : ShapePipeline)
    (hargs : w.args = some args)
    (hvf : (w.argsMem args)._viewFrustum = some viewFrustum)
    (hlight : w.lights[0]? = some (some globalLight))
    (hp : sp.pickPipeline ShapeKey.default = some p)
    (hq : sp.pickPipeline ShapeKey.withSkinned = some q) :
    ∃ w1, RenderShadowMap.run sp w m = some (w1,
      [Command.setViewportTransform
          ⟨0, 0, (w.lightMem globalLight).shadow.framebuffer.width,
            (w.lightMem globalLight).shadow.framebuffer.height⟩,
        Command.setStateScissorRect
          ⟨0, 0, (w.lightMem globalLight).shadow.framebuffer.width,
            (w.lightMem globalLight).shadow.framebuffer.height⟩,
        Command.setFramebuffer (w.lightMem globalLight).shadow.framebuffer,
        Command.clearFramebuffer [BufferTarget.BUFFER_COLOR0, BufferTarget.BUFFER_DEPTH]
          ⟨1, 1, 1, 1⟩ 1 0 true,
        Command.setProjectionTransform (w.lightMem globalLight).shadow.projection,
        Command.setViewTransform (w.lightMem globalLight).shadow.view,
        Command.setPipeline p.pipeline] ++
      (m.entries.filter (fun e => !e.1.isSkinned)).map
        (fun e => Command.renderItems (some p) e.2) ++
      [Command.setPipeline q.pipeline] ++
      (m.entries.filter (fun e => e.1.isSkinned)).map
        (fun e => Command.renderItems (some q) e.2)) := by
  have hsk : ∀ e ∈ m.entries.filter (fun e => e.1.isSkinned), e ∈ m.entries :=
    fun e he => (List.mem_filter.mp he).1
  simp only [RenderShadowMap.run, hargs, hvf, hlight, hp, hq, foldl_unskinned,
    pipeline_setPipeline, List.nil_append, foldlM_skinned _ _ m _ hsk]
  exact ⟨_, rfl⟩

theorem draws_renderItems_append (bound : Option Pipeline) (active : Option ShapePipeline)
    (es : List (ShapeKey × ItemIDsBounds)) (rest : Batch) :
    draws bound (es.map (fun e => Command.renderItems active e.2) ++ rest) =
      es.map (fun e => (⟨bound, active, e.2⟩ : Draw)) ++ draws bound rest := by
  induction es with
  | nil => simp
  | cons e tl ih => simp [draws, ih]

theorem draws_renderItems (bound : Option Pipeline) (active : Option ShapePipeline)
    (es : List (ShapeKey × ItemIDsBounds)) :
    draws bound (es.map (fun e => Command.renderItems active e.2)) =
      es.map (fun e => (⟨bound, active, e.2⟩ : Draw)) := by
  have h := draws_renderItems_append bound active es []
  simpa [draws] using h

theorem clears_renderItems_append (active : Option ShapePipeline)
    (es : List (ShapeKey × ItemIDsBounds)) (rest : Batch) :
    clears (es.map (fun e => Command.renderItems active e.2) ++ rest) = clears rest := by
  induction es with
  | nil => simp
  | cons e tl ih => simp [clears, ih]

theorem clears_renderItems (active : Option ShapePipeline)
    (es : List (ShapeKey × ItemIDsBounds)) :
    clears (es.map (fun e => Command.renderItems active e.2)) = [] := by
  have h := clears_renderItems_append active es []
  simpa [clears] using h

/-! ## Properties of `RenderShadowMap::run` -/

/-- C4: skinned ordering. For every input shape map, when the run completes (render
args, their frustum and the primary light present, both pipelines found) the
draws of the batch are: the non-skinned entries in map order, each with the
pipeline picked for `ShapeKey()` bound on the batch and active in the render
args, followed by the skinned entries in map order, each with the pipeline
picked for `ShapeKey::Builder().withSkinned()` bound and active. So every
skinned entry is rendered under the skinned pipeline after all non-skinned
entries, and every non-skinned entry under the non-skinned pipeline. -/
theorem RenderShadowMap.run_skinned_ordering (sp : ShapePlumber) (w : World)
    (m : ShapesIDsBounds) (args viewFrustum globalLight : Ptr) (p q : ShapePipeline)
    (hargs : w.args = some args)
    (hvf : (w.argsMem args)._viewFrustum = some viewFrustum)
    (hlight : w.lights[0]? = some (some globalLight))
    (hp : sp.pickPipeline ShapeKey.default = some p)
    (hq : sp.pickPipeline ShapeKey.withSkinned = some q) :
    ∃ r, RenderShadowMap.run sp w m = some r ∧
      draws none r.2 =
        (m.entries.filter (fun e => !e.1.isSkinned)).map
          (fun e => (⟨some p.pipeline, some p, e.2⟩ : Draw)) ++
        (m.entries.filter (fun e => e.1.isSkinned)).map
          (fun e => (⟨some q.pipeline, some q, e.2⟩ : Draw)) := by
  obtain ⟨w1, hrun⟩ :=
    RenderShadowMap.run_batch sp w m args viewFrustum globalLight p q hargs hvf hlight hp hq
  refine ⟨_, hrun, ?_⟩
  simp [draws, draws_renderItems_append, draws_renderItems]

/-- The skinned ordering at the plumber of the shadow task, on a map that lists a
skinned entry before a rigid one: the rigid entry is drawn first. -/
theorem RenderShadowMap.run_skinned_ordering_witness :
    sampleWorld.args = some 1 ∧ (sampleWorld.argsMem 1)._viewFrustum = some 5 ∧
    sampleWorld.lights[0]? = some (some 2) ∧
    RenderShadowTask.shapePlumber.pickPipeline ShapeKey.default = some modelPipeline ∧
    RenderShadowTask.shapePlumber.pickPipeline ShapeKey.withSkinned = some skinPipeline ∧
    ∃ r, RenderShadowMap.run RenderShadowTask.shapePlumber sampleWorld mixedShapes = some r ∧
      draws none r.2 =
        [⟨some modelPipeline.pipeline, some modelPipeline, [sampleItem 4]⟩,
          ⟨some skinPipeline.pipeline, some skinPipeline, [sampleItem 3]⟩] :=
  ⟨rfl, rfl, rfl, rfl, rfl,
    RenderShadowMap.run_skinned_ordering RenderShadowTask.shapePlumber sampleWorld mixedShapes
      1 5 2 modelPipeline skinPipeline rfl rfl rfl rfl rfl⟩

/-- C5, as stated, fails: with a plumber whose filters match `ShapeKey()` and the
skinned key only, the key `oddKey` gets no pipeline from `pickPipeline`, and
yet the run over a map holding an entry under `oddKey` completes with the
items of that entry drawn, under the pipeline of `ShapeKey()`. -/
theorem RenderShadowMap.run_draws_unresolvable_entry :
    exactPlumber.pickPipeline oddKey = none ∧
    (oddKey, [sampleItem 7]) ∈ oddShapes.entries ∧
    ∃ r, RenderShadowMap.run exactPlumber sampleWorld oddShapes = some r ∧
      draws none r.2 =
        [⟨some modelPipeline.pipeline, some modelPipeline, [sampleItem 7]⟩,
          ⟨some modelPipeline.pipeline, some modelPipeline, [sampleItem 8]⟩] := by
  refine ⟨rfl, by simp [oddShapes], ?_⟩
  obtain ⟨w1, hrun⟩ := RenderShadowMap.run_batch exactPlumber sampleWorld oddShapes 1 5 2
    modelPipeline skinPipeline rfl rfl rfl rfl rfl
  refine ⟨_, hrun, ?_⟩
  simp [draws, draws_renderItems_append, draws_renderItems]

/-- C5, amended: `RenderShadowMap::run` looks up the pipelines of `ShapeKey()` and of
`ShapeKey::Builder().withSkinned()` only, never the key of an entry. When
both are found (render args, their frustum and the primary light present) the
run completes and every entry of the input map is rendered, whether or not
its own key matches a registered filter: a non-skinned entry under the first
pipeline, a skinned entry under the second. With the two filters registered
by the constructor of the shadow task every key gets a pipeline. -/
theorem RenderShadowMap.run_renders_every_entry (sp : ShapePlumber) (w : World)
    (m : ShapesIDsBounds) (args viewFrustum globalLight : Ptr) (p q : ShapePipeline)
    (hargs : w.args = some args)
    (hvf : (w.argsMem args)._viewFrustum = some viewFrustum)
    (hlight : w.lights[0]? = some (some globalLight))
    (hp : sp.pickPipeline ShapeKey.default = some p)
    (hq : sp.pickPipeline ShapeKey.withSkinned = some q) :
    (∃ r, RenderShadowMap.run sp w m = some r ∧
      ∀ e ∈ m.entries,
        Command.renderItems (some (if e.1.isSkinned then q else p)) e.2 ∈ r.2) ∧
    (∀ key, RenderShadowTask.shapePlumber.pickPipeline key =
      some (if key.isSkinned then skinPipeline else modelPipeline)) := by
  refine ⟨?_, ?_⟩
  · obtain ⟨w1, hrun⟩ :=
      RenderShadowMap.run_batch sp w m args viewFrustum globalLight p q hargs hvf hlight hp hq
    refine ⟨_, hrun, ?_⟩
    intro e he
    cases hs : e.1.isSkinned with
    | true =>
      have hmem : e ∈ m.entries.filter (fun e => e.1.isSkinned) := List.mem_filter.mpr ⟨he, hs⟩
      have hin := List.mem_map_of_mem (fun e => Command.renderItems (some q) e.2) hmem
      simp only [if_true]
      exact List.mem_append_right _ hin
    | false =>
      have hmem : e ∈ m.entries.filter (fun e => !e.1.isSkinned) :=
        List.mem_filter.mpr ⟨he, by simp [hs]⟩
      have hin := List.mem_map_of_mem (fun e => Command.renderItems (some p) e.2) hmem
      simp only [Bool.false_eq_true, if_false]
      exact List.mem_append_left _ (List.mem_append_left _ (List.mem_append_right _ hin))
  · intro key
    obtain ⟨sk, others⟩ := key
    cases sk <;> rfl

/-- The amended C5 on the map with an entry whose key matches no filter. -/
theorem RenderShadowMap.run_renders_every_entry_witness :
    sampleWorld.args = some 1 ∧ (sampleWorld.argsMem 1)._viewFrustum = some 5 ∧
    sampleWorld.lights[0]? = some (some 2) ∧
    exactPlumber.pickPipeline ShapeKey.default = some modelPipeline ∧
    exactPlumber.pickPipeline ShapeKey.withSkinned = some skinPipeline ∧
    exactPlumber.pickPipeline oddKey = none ∧
    ∃ r, RenderShadowMap.run exactPlumber sampleWorld oddShapes = some r ∧
      ∀ e ∈ oddShapes.entries,
        Command.renderItems (some (if e.1.isSkinned then skinPipeline else modelPipeline)) e.2
          ∈ r.2 :=
  ⟨rfl, rfl, rfl, rfl, rfl, rfl,
    (RenderShadowMap.run_renders_every_entry exactPlumber sampleWorld oddShapes
      1 5 2 modelPipeline skinPipeline rfl rfl rfl rfl rfl).1⟩

/-- C7: clear and draw count. For every input shape map, when the run completes the
batch holds exactly one clear of the framebuffer (colour and depth of the
shadow framebuffer bound just before), and the item lists handed to
`renderItems` are the item lists of the entries of the map, each entry once:
as many calls as entries, none dropped, none twice. For an empty map the
clear is there and there is no call of `renderItems`. -/
theorem RenderShadowMap.run_clear_and_draw_count (sp : ShapePlumber) (w : World)
    (m : ShapesIDsBounds) (args viewFrustum globalLight : Ptr) (p q : ShapePipeline)
    (hargs : w.args = some args)
    (hvf : (w.argsMem args)._viewFrustum = some viewFrustum)
    (hlight : w.lights[0]? = some (some globalLight))
    (hp : sp.pickPipeline ShapeKey.default = some p)
    (hq : sp.pickPipeline ShapeKey.withSkinned = some q) :
    ∃ r, RenderShadowMap.run sp w m = some r ∧
      clears r.2 = [Command.clearFramebuffer
        [BufferTarget.BUFFER_COLOR0, BufferTarget.BUFFER_DEPTH] ⟨1, 1, 1, 1⟩ 1 0 true] ∧
      (renderedItems r.2).Perm (m.entries.map Prod.snd) ∧
      (renderedItems r.2).length = m.entries.length ∧
      (m.entries = [] → renderedItems r.2 = []) := by
  obtain ⟨w1, hrun⟩ :=
    RenderShadowMap.run_batch sp w m args viewFrustum globalLight p q hargs hvf hlight hp hq
  have hdraws : renderedItems
      ([Command.setViewportTransform
          ⟨0, 0, (w.lightMem globalLight).shadow.framebuffer.width,
            (w.lightMem globalLight).shadow.framebuffer.height⟩,
        Command.setStateScissorRect
          ⟨0, 0, (w.lightMem globalLight).shadow.framebuffer.width,
            (w.lightMem globalLight).shadow.framebuffer.height⟩,
        Command.setFramebuffer (w.lightMem globalLight).shadow.framebuffer,
        Command.clearFramebuffer [BufferTarget.BUFFER_COLOR0, BufferTarget.BUFFER_DEPTH]
          ⟨1, 1, 1, 1⟩ 1 0 true,
        Command.setProjectionTransform (w.lightMem globalLight).shadow.projection,
        Command.setViewTransform (w.lightMem globalLight).shadow.view,
        Command.setPipeline p.pipeline] ++
      (m.entries.filter (fun e => !e.1.isSkinned)).map
        (fun e => Command.renderItems (some p) e.2) ++
      [Command.setPipeline q.pipeline] ++
      (m.entries.filter (fun e => e.1.isSkinned)).map
        (fun e => Command.renderItems (some q) e.2)) =
      ((m.entries.filter (fun e => !e.1.isSkinned)) ++
        (m.entries.filter (fun e => e.1.isSkinned))).map Prod.snd := by
    simp [renderedItems, draws, draws_renderItems_append, draws_renderItems]
    rfl
  have hperm : ((m.entries.filter (fun e => !e.1.isSkinned)) ++
      (m.entries.filter (fun e => e.1.isSkinned))).Perm m.entries :=
    List.perm_append_comm.trans (List.filter_append_perm (fun e => e.1.isSkinned) m.entries)
  refine ⟨_, hrun, ?_, ?_, ?_, ?_⟩
  · simp [clears, clears_renderItems_append, clears_renderItems]
  · rw [hdraws]
    exact hperm.map Prod.snd
  · rw [hdraws, List.length_map]
    exact hperm.length_eq
  · intro hnil
    rw [hdraws, hnil]
    rfl

/-- The clear and the absence of draws on the empty map. -/
theorem RenderShadowMap.run_clear_and_draw_count_witness :
    sampleWorld.args = some 1 ∧ (sampleWorld.argsMem 1)._viewFrustum = some 5 ∧
    sampleWorld.lights[0]? = some (some 2) ∧
    RenderShadowTask.shapePlumber.pickPipeline ShapeKey.default = some modelPipeline ∧
    RenderShadowTask.shapePlumber.pickPipeline ShapeKey.withSkinned = some skinPipeline ∧
    ∃ r, RenderShadowMap.run RenderShadowTask.shapePlumber sampleWorld noShapes = some r ∧
      clears r.2 = [Command.clearFramebuffer
        [BufferTarget.BUFFER_COLOR0, BufferTarget.BUFFER_DEPTH] ⟨1, 1, 1, 1⟩ 1 0 true] ∧
      (renderedItems r.2).Perm (noShapes.entries.map Prod.snd) ∧
      (renderedItems r.2).length = noShapes.entries.length ∧
      (noShapes.entries = [] → renderedItems r.2 = []) :=
  ⟨rfl, rfl, rfl, rfl, rfl,
    RenderShadowMap.run_clear_and_draw_count RenderShadowTask.shapePlumber sampleWorld noShapes
      1 5 2 modelPipeline skinPipeline rfl rfl rfl rfl rfl⟩

/-- C8: recording order. For every input shape map, when the run completes the
batch is, in this order: set viewport, set scissor, bind framebuffer, clear,
set projection transform, set view transform, bind the non-skinned pipeline,
the draws of the non-skinned entries, bind the skinned pipeline, the draws
of the skinned entries. The clear precedes both transform sets and these
precede every draw. -/
theorem RenderShadowMap.run_recording_order (sp : ShapePlumber) (w : World)
    (m : ShapesIDsBounds) (args viewFrustum globalLight : Ptr) (p q : ShapePipeline)
    (hargs : w.args = some args)
    (hvf : (w.argsMem args)._viewFrustum = some viewFrustum)
    (hlight : w.lights[0]? = some (some globalLight))
    (hp : sp.pickPipeline ShapeKey.default = some p)
    (hq : sp.pickPipeline ShapeKey.withSkinned = some q) :
    ∃ r, RenderShadowMap.run sp w m = some r ∧
      r.2 =
        [Command.setViewportTransform
            ⟨0, 0, (w.lightMem globalLight).shadow.framebuffer.width,
              (w.lightMem globalLight).shadow.framebuffer.height⟩,
          Command.setStateScissorRect
            ⟨0, 0, (w.lightMem globalLight).shadow.framebuffer.width,
              (w.lightMem globalLight).shadow.framebuffer.height⟩,
          Command.setFramebuffer (w.lightMem globalLight).shadow.framebuffer,
          Command.clearFramebuffer [BufferTarget.BUFFER_COLOR0, BufferTarget.BUFFER_DEPTH]
            ⟨1, 1, 1, 1⟩ 1 0 true,
          Command.setProjectionTransform (w.lightMem globalLight).shadow.projection,
          Command.setViewTransform (w.lightMem globalLight).shadow.view,
          Command.setPipeline p.pipeline] ++
        (m.entries.filter (fun e => !e.1.isSkinned)).map
          (fun e => Command.renderItems (some p) e.2) ++
        [Command.setPipeline q.pipeline] ++
        (m.entries.filter (fun e => e.1.isSkinned)).map
          (fun e => Command.renderItems (some q) e.2) := by
  obtain ⟨w1, hrun⟩ :=
    RenderShadowMap.run_batch sp w m args viewFrustum globalLight p q hargs hvf hlight hp hq
  exact ⟨_, hrun, rfl⟩

/-- The recording order on a map that lists a skinned entry before a rigid one. -/
theorem RenderShadowMap.run_recording_order_witness :
    sampleWorld.args = some 1 ∧ (sampleWorld.argsMem 1)._viewFrustum = some 5 ∧
    sampleWorld.lights[0]? = some (some 2) ∧
    RenderShadowTask.shapePlumber.pickPipeline ShapeKey.default = some modelPipeline ∧
    RenderShadowTask.shapePlumber.pickPipeline ShapeKey.withSkinned = some skinPipeline ∧
    ∃ r, RenderShadowMap.run RenderShadowTask.shapePlumber sampleWorld mixedShapes = some r ∧
      r.2 =
        [Command.setViewportTransform ⟨0, 0, 2048, 2048⟩,
          Command.setStateScissorRect ⟨0, 0, 2048, 2048⟩,
          Command.setFramebuffer ⟨2048, 2048⟩,
          Command.clearFramebuffer [BufferTarget.BUFFER_COLOR0, BufferTarget.BUFFER_DEPTH]
            ⟨1, 1, 1, 1⟩ 1 0 true,
          Command.setProjectionTransform 0,
          Command.setViewTransform 0,
          Command.setPipeline modelPipeline.pipeline,
          Command.renderItems (some modelPipeline) [sampleItem 4],
          Command.setPipeline skinPipeline.pipeline,
          Command.renderItems (some skinPipeline) [sampleItem 3]] :=
  ⟨rfl, rfl, rfl, rfl, rfl,
    RenderShadowMap.run_recording_order RenderShadowTask.shapePlumber sampleWorld mixedShapes
      1 5 2 modelPipeline skinPipeline rfl rfl rfl rfl rfl⟩

/-! ## Properties of `AACube` -/

theorem AACube.contains_iff (c : AACube) (p : Vec3) :
    c.contains p = true ↔
      (c.corner.x ≤ p.x ∧ p.x ≤ c.corner.x + c.scale) ∧
      (c.corner.y ≤ p.y ∧ p.y ≤ c.corner.y + c.scale) ∧
      (c.corner.z ≤ p.z ∧ p.z ≤ c.corner.z + c.scale) := by
  simp only [AACube.contains, AACube.getMinimumPoint, AACube.getMaximumPoint, Vec3.add,
    Vec3.splat, Bool.and_eq_true, decide_eq_true_eq, and_assoc]

/-- C10: point containment. A cube built from a corner `c` and a positive scale `s`
contains its centre, and for every axis `i` and every `delta` with
`0 < delta < s/2` it contains the points at `s/2 - delta` from the centre
along `i`, in both directions, and does not contain the points at
`s/2 + delta` from the centre along `i`, in either direction. -/
theorem AACube.contains_center_and_near_faces (c : Vec3) (s : ℚ) (hs : 0 < s) :
    (AACube.mk c s).contains (AACube.mk c s).calcCenter = true ∧
    ∀ (i : Fin 3) (delta : ℚ), 0 < delta → delta < s / 2 →
      (AACube.mk c s).contains
        ((AACube.mk c s).calcCenter.add (Vec3.axis i (s / 2 - delta))) = true ∧
      (AACube.mk c s).contains
        ((AACube.mk c s).calcCenter.sub (Vec3.axis i (s / 2 - delta))) = true ∧
      (AACube.mk c s).contains
        ((AACube.mk c s).calcCenter.add (Vec3.axis i (s / 2 + delta))) = false ∧
      (AACube.mk c s).contains
        ((AACube.mk c s).calcCenter.sub (Vec3.axis i (s / 2 + delta))) = false := by
  have hhalf : 0 < s / 2 := by linarith
  refine ⟨?_, ?_⟩
  · rw [AACube.contains_iff]
    simp only [AACube.calcCenter, Vec3.add, Vec3.splat]
    refine ⟨⟨?_, ?_⟩, ⟨?_, ?_⟩, ⟨?_, ?_⟩⟩ <;> linarith
  · intro i delta hd hlt
    refine ⟨?_, ?_, ?_, ?_⟩
    · rw [AACube.contains_iff]
      fin_cases i <;> simp only [AACube.calcCenter, Vec3.add, Vec3.splat, Vec3.axis] <;>
        refine ⟨⟨?_, ?_⟩, ⟨?_, ?_⟩, ⟨?_, ?_⟩⟩ <;> linarith
    · rw [AACube.contains_iff]
      fin_cases i <;>
        simp only [AACube.calcCenter, Vec3.add, Vec3.sub, Vec3.splat, Vec3.axis] <;>
        refine ⟨⟨?_, ?_⟩, ⟨?_, ?_⟩, ⟨?_, ?_⟩⟩ <;> linarith
    · rw [Bool.eq_false_iff, Ne, AACube.contains_iff]
      fin_cases i <;> simp only [AACube.calcCenter, Vec3.add, Vec3.splat, Vec3.axis] <;>
        rintro ⟨⟨h1, h2⟩, ⟨h3, h4⟩, ⟨h5, h6⟩⟩ <;> linarith
    · rw [Bool.eq_false_iff, Ne, AACube.contains_iff]
      fin_cases i <;>
        simp only [AACube.calcCenter, Vec3.add, Vec3.sub, Vec3.splat, Vec3.axis] <;>
        rintro ⟨⟨h1, h2⟩, ⟨h3, h4⟩, ⟨h5, h6⟩⟩ <;> linarith

/-- The containment property at the cube of `AACubeTests::containsPoint`: corner
(4.56, 7.89, -1.35) and scale 1.23. -/
theorem AACube.contains_center_and_near_faces_witness :
    (0 : ℚ) < 123 / 100 ∧
    ((AACube.mk ⟨456 / 100, 789 / 100, -135 / 100⟩ (123 / 100)).contains
      (AACube.mk ⟨456 / 100, 789 / 100, -135 / 100⟩ (123 / 100)).calcCenter = true ∧
    ∀ (i : Fin 3) (delta : ℚ), 0 < delta → delta < (123 / 100 : ℚ) / 2 →
      (AACube.mk ⟨456 / 100, 789 / 100, -135 / 100⟩ (123 / 100)).contains
        ((AACube.mk ⟨456 / 100, 789 / 100, -135 / 100⟩ (123 / 100)).calcCenter.add
          (Vec3.axis i (123 / 100 / 2 - delta))) = true ∧
      (AACube.mk ⟨456 / 100, 789 / 100, -135 / 100⟩ (123 / 100)).contains
        ((AACube.mk ⟨456 / 100, 789 / 100, -135 / 100⟩ (123 / 100)).calcCenter.sub
          (Vec3.axis i (123 / 100 / 2 - delta))) = true ∧
      (AACube.mk ⟨456 / 100, 789 / 100, -135 / 100⟩ (123 / 100)).contains
        ((AACube.mk ⟨456 / 100, 789 / 100, -135 / 100⟩ (123 / 100)).calcCenter.add
          (Vec3.axis i (123 / 100 / 2 + delta))) = false ∧
      (AACube.mk ⟨456 / 100, 789 / 100, -135 / 100⟩ (123 / 100)).contains
        ((AACube.mk ⟨456 / 100, 789 / 100, -135 / 100⟩ (123 / 100)).calcCenter.sub
          (Vec3.axis i (123 / 100 / 2 + delta))) = false) :=
  ⟨by norm_num,
    AACube.contains_center_and_near_faces ⟨456 / 100, 789 / 100, -135 / 100⟩ (123 / 100)
      (by norm_num)⟩

/-! ## Lemmas on the prefix map -/

theorem QString.startsWith_iff (s start : QString) :
    s.startsWith start = true ↔ start <+: s := by
  simp [QString.startsWith, List.isPrefixOf_iff_prefix]

theorem QString.replace_zero (s : QString) (n : Nat) (after : QString) :
    s.replace 0 n after = after ++ List.drop n s := by
  unfold QString.replace QString.size
  by_cases h : n > s.length
  · simp [h, List.drop_eq_nil_of_le (Nat.le_of_lt h)]
  · simp [h]

theorem ResourceManager.normalizeLoop_eq_fold (m : PrefixMap) (urlString : QString) :
    ResourceManager.normalizeLoop m urlString =
      ResourceManager.normalizeURLFold m urlString := by
  induction m generalizing urlString with
  | nil => rfl
  | cons entry rest ih =>
    simp only [ResourceManager.normalizeLoop, ResourceManager.normalizeURLFold, List.foldl_cons]
    by_cases h : entry.1 <+: urlString
    · have hs : QString.startsWith urlString entry.1 = true :=
        (QString.startsWith_iff urlString entry.1).mpr h
      rw [if_pos hs, if_pos h, QString.replace_zero, ih]
      rfl
    · have hs : ¬ QString.startsWith urlString entry.1 = true :=
        fun hs => h ((QString.startsWith_iff urlString entry.1).mp hs)
      rw [if_neg hs, if_neg h, ih]
      rfl

theorem ResourceManager.normalizeURLFold_unchanged (m : PrefixMap) (urlString : QString)
    (h : ∀ e ∈ m, ¬ e.1 <+: urlString) :
    ResourceManager.normalizeURLFold m urlString = urlString := by
  induction m with
  | nil => rfl
  | cons entry rest ih =>
    have h1 : ¬ entry.1 <+: urlString := h entry (List.mem_cons_self _ _)
    have h2 : ∀ e ∈ rest, ¬ e.1 <+: urlString := fun e he => h e (List.mem_cons_of_mem _ he)
    have hrest := ih h2
    simp only [ResourceManager.normalizeURLFold, List.foldl_cons, if_neg h1] at hrest ⊢
    exact hrest

theorem PrefixMap.erase_ascending (m : PrefixMap) (key : QString)
    (h : (m.map Prod.fst).Pairwise (· < ·)) :
    ((PrefixMap.erase m key).map Prod.fst).Pairwise (· < ·) :=
  h.sublist ((List.filter_sublist m).map Prod.fst)

theorem PrefixMap.assign_keys (m : PrefixMap) (key value : QString) (x : QString)
    (hx : x ∈ (PrefixMap.assign m key value).map Prod.fst) :
    x = key ∨ x ∈ m.map Prod.fst := by
  induction m with
  | nil => simpa [PrefixMap.assign] using hx
  | cons e rest ih =>
    simp only [PrefixMap.assign] at hx
    split_ifs at hx with h1 h2
    · simp only [List.map_cons, List.mem_cons] at hx ⊢
      tauto
    · simp only [List.map_cons, List.mem_cons] at hx ⊢
      tauto
    · simp only [List.map_cons, List.mem_cons] at hx ⊢
      rcases hx with hx | hx
      · exact Or.inr (Or.inl hx)
      · rcases ih hx with h | h
        · exact Or.inl h
        · exact Or.inr (Or.inr h)

theorem PrefixMap.assign_ascending (m : PrefixMap) (key value : QString)
    (h : (m.map Prod.fst).Pairwise (· < ·)) :
    ((PrefixMap.assign m key value).map Prod.fst).Pairwise (· < ·) := by
  induction m with
  | nil => simp [PrefixMap.assign]
  | cons e rest ih =>
    rw [List.map_cons, List.pairwise_cons] at h
    obtain ⟨hhead, htail⟩ := h
    simp only [PrefixMap.assign]
    split_ifs with h1 h2
    · simp only [List.map_cons, List.pairwise_cons, List.mem_cons]
      refine ⟨?_, hhead, htail⟩
      rintro x (rfl | hx)
      · exact h1
      · exact lt_trans h1 (hhead x hx)
    · simp only [List.map_cons, List.pairwise_cons]
      exact ⟨fun x hx => h2 ▸ hhead x hx, htail⟩
    · have hlt : e.1 < key := lt_of_le_of_ne (not_lt.mp h1) (Ne.symm h2)
      simp only [List.map_cons, List.pairwise_cons]
      refine ⟨?_, ih htail⟩
      intro x hx
      rcases PrefixMap.assign_keys rest key value x hx with rfl | hmem
      · exact hlt
      · exact hhead x hmem

theorem ResourceManager.setUrlPrefixOverride_ascending (m : PrefixMap)
    (urlPrefix replacement : QString) (h : (m.map Prod.fst).Pairwise (· < ·)) :
    ((ResourceManager.setUrlPrefixOverride m urlPrefix replacement).map Prod.fst).Pairwise
      (· < ·) := by
  unfold ResourceManager.setUrlPrefixOverride
  split_ifs
  · exact PrefixMap.erase_ascending m urlPrefix h
  · exact PrefixMap.assign_ascending m urlPrefix replacement h

theorem ResourceManager.foldl_setUrlPrefixOverride_ascending (calls : List (QString × QString))
    (m : PrefixMap) (h : (m.map Prod.fst).Pairwise (· < ·)) :
    ((calls.foldl (fun m call => ResourceManager.setUrlPrefixOverride m call.1 call.2) m).map
      Prod.fst).Pairwise (· < ·) := by
  induction calls generalizing m with
  | nil => exact h
  | cons call rest ih =>
    exact ih _ (ResourceManager.setUrlPrefixOverride_ascending m call.1 call.2 h)

/-! ## Properties of `ResourceManager::normalizeURL` -/

/-- C11: `normalizeURL(QString)` is a left fold over the prefix map in ascending key
order. In every state the static map can reach through `setUrlPrefixOverride`
its entries are in strictly ascending key order, and `normalizeURL` returns
the fold over them that starts from the input string and, at each entry
whose prefix the running result starts with, puts the replacement in place
of the first |prefix| characters. So a string that starts with no registered
prefix is returned unchanged; so is any string when the map is empty, and
when `setUrlPrefixOverride(p, "")` has erased the only entry. -/
theorem ResourceManager.normalizeURL_folds_prefix_map (calls : List (QString × QString))
    (urlString : QString) :
    ((ResourceManager.prefixMapAfter calls).map Prod.fst).Pairwise (· < ·) ∧
    ResourceManager.normalizeURL (ResourceManager.prefixMapAfter calls) urlString =
      ResourceManager.normalizeURLFold (ResourceManager.prefixMapAfter calls) urlString ∧
    ((∀ e ∈ ResourceManager.prefixMapAfter calls, ¬ e.1 <+: urlString) →
      ResourceManager.normalizeURL (ResourceManager.prefixMapAfter calls) urlString
        = urlString) ∧
    ResourceManager.normalizeURL (ResourceManager.prefixMapAfter []) urlString = urlString ∧
    (∀ p r, ResourceManager.prefixMapAfter calls = [(p, r)] →
      ResourceManager.prefixMapAfter (calls ++ [(p, [])]) = [] ∧
      ResourceManager.normalizeURL (ResourceManager.prefixMapAfter (calls ++ [(p, [])]))
        urlString = urlString) := by
  refine ⟨?_, ?_, ?_, rfl, ?_⟩
  · exact ResourceManager.foldl_setUrlPrefixOverride_ascending calls [] List.Pairwise.nil
  · exact ResourceManager.normalizeLoop_eq_fold _ urlString
  · intro h
    exact (ResourceManager.normalizeLoop_eq_fold _ urlString).trans
      (ResourceManager.normalizeURLFold_unchanged _ urlString h)
  · intro p r hm
    have herased : ResourceManager.prefixMapAfter (calls ++ [(p, [])]) = [] := by
      unfold ResourceManager.prefixMapAfter at hm ⊢
      rw [List.foldl_append, hm]
      simp [ResourceManager.setUrlPrefixOverride, QString.isEmpty, QString.size,
        PrefixMap.erase]
    rw [herased]
    exact ⟨rfl, rfl⟩

/-- The fold at a map filled against key order: after `b` to `c` and then `a` to
`b` are registered, the entry of `a` comes first and `a1` becomes `c1`. -/
theorem ResourceManager.normalizeURL_folds_prefix_map_witness :
    ResourceManager.prefixMapAfter chainedCalls =
      [(QString.ofString "a", QString.ofString "b"),
        (QString.ofString "b", QString.ofString "c")] ∧
    ResourceManager.normalizeURL (ResourceManager.prefixMapAfter chainedCalls)
      (QString.ofString "a1") = QString.ofString "c1" ∧
    ResourceManager.normalizeURL (ResourceManager.prefixMapAfter chainedCalls)
      (QString.ofString "a1") =
      ResourceManager.normalizeURLFold (ResourceManager.prefixMapAfter chainedCalls)
        (QString.ofString "a1") :=
  ⟨by decide, by decide,
    (ResourceManager.normalizeURL_folds_prefix_map chainedCalls (QString.ofString "a1")).2.1⟩

end Hifi
